import Mathlib

/-!
ELM327 emulator (ESP32RET): protocol engine.

A shallow embedding of `ELM327_Emulator.cpp` / `ELM327_Emulator.h`:

* the session object `ELM327Emu` with the members the protocol engine reads and writes,
* `processELMCmd` (normalizer, AT dispatcher, diagnostic request encoder),
* `processCANReply` (reply formatter), `processCANWaiting` and `processCANSearching`
  (completion monitors).

Conventions of the embedding.

* Text is `List Char`; a C string is the list of its characters before the terminating NUL.
* Machine integers are `Nat`, reduced modulo `2 ^ w` where the source stores into a `w`-bit
  member or subtracts unsigned values.
* `millis()` is an argument `millis : Nat` of the operation that reads the clock.
* `canManager.sendFrame(&CAN0, f)` appends `f` to the list `sent` of the outcome;
  `txBuffer.sendString(t); sendTxBuffer()` sets `emitted := some t`.
* The transport members (`mClient`, `txBuffer`, `incomingBuffer`, `ibWritePtr`, `tickCounter`)
  belong to the line buffering around the engine and are not part of the embedded state.
* `processCANReply` formats the identifier into the local array `char buff[8]`. `headerInBuff`
  says whether that `sprintf` stays inside the array; where it does not, the source has no
  defined behaviour and `processCANReply` of this file describes no run of the program.
-/

set_option linter.dupNamespace false

namespace ELM327

/-! Data model -/

/-- A bus frame, with the members of `CAN_FRAME` that the emulator assigns or reads.
`data` holds `data.byte[0..7]`. -/
structure CAN_FRAME where
  id : Nat
  extended : Bool
  rtr : Nat
  length : Nat
  data : List Nat
deriving DecidableEq, Repr

/-- The private data members of `class ELM327Emu` (ELM327_Emulator.h, lines 96-137). -/
structure ELM327Emu where
  monitorAll_enable : Bool
  allowLongMessages : Bool
  canTransmitAddress : Nat
  canAutomaticFormatting_enable : Bool
  canExtendedAddressing_enable : Bool
  canExtendedAddressing_data : Nat
  canIdFilter_enable : Bool
  canIdFilter_addr : Nat
  canIdFilter_addrExtended : Bool
  canFlowControl_enable : Bool
  canFlowControl_mode : Nat
  canFlowControl_addr : Nat
  canFlowControl_addrExtended : Bool
  canFlowControl_data : List Nat
  canFlowControl_dataLen : Nat
  canReceiveAddress_enable : Bool
  canReceiveAddress_addr : Nat
  canReceiveAddress_addrExtended : Bool
  print_linefeed : Bool
  print_echo : Bool
  print_header : Bool
  print_dlc : Bool
  print_space : Bool
  timeout : Nat
  waitingForRequest : Bool
  waitingForRequest_millis : Nat
  waitingForRequest_CANcount : Nat
  waitingForSearching : Bool
  waitingForSearching_millis : Nat
deriving DecidableEq, Repr

/-- What `processELMCmd` produces: the session afterwards, the returned `retString`, and the
frames handed to `canManager.sendFrame` in order. -/
structure CmdOutcome where
  state : ELM327Emu
  reply : List Char
  sent : List CAN_FRAME
deriving DecidableEq, Repr

/-- What a bus-side handler produces: the session afterwards, the text written to the output
(`none` when `txBuffer.sendString` is not reached), and the frames sent to the bus. -/
structure BusOutcome where
  state : ELM327Emu
  emitted : Option (List Char)
  sent : List CAN_FRAME
deriving DecidableEq, Repr

/-- The constructor `ELM327Emu::ELM327Emu()` (lines 49-95). `mem` is the object before
the constructor body runs: the body assigns every member below and leaves
`waitingForSearching` and `waitingForSearching_millis` as they were. -/
def ELM327Emu.ELM327Emu (mem : ELM327Emu) : ELM327Emu :=
  { mem with
    monitorAll_enable := false
    allowLongMessages := false
    canTransmitAddress := 0x7E0
    canAutomaticFormatting_enable := true
    canExtendedAddressing_enable := false
    canExtendedAddressing_data := 0x00
    canIdFilter_enable := false
    canIdFilter_addr := 0x00
    canIdFilter_addrExtended := false
    canFlowControl_enable := false
    canFlowControl_mode := 0
    canFlowControl_addr := 0
    canFlowControl_addrExtended := false
    canFlowControl_data := [0, 0, 0, 0, 0]
    canFlowControl_dataLen := 0
    canReceiveAddress_enable := false
    canReceiveAddress_addr := 0x00
    canReceiveAddress_addrExtended := false
    print_linefeed := false
    print_echo := false
    print_header := true
    print_dlc := false
    print_space := true
    timeout := 200
    waitingForRequest := false
    waitingForRequest_millis := 0
    waitingForRequest_CANcount := 0 }

/-- An object whose storage is all zero bits, as for an object with static storage before
its constructor runs. -/
def zeroMemory : ELM327Emu :=
  { monitorAll_enable := false, allowLongMessages := false, canTransmitAddress := 0,
    canAutomaticFormatting_enable := false, canExtendedAddressing_enable := false,
    canExtendedAddressing_data := 0, canIdFilter_enable := false, canIdFilter_addr := 0,
    canIdFilter_addrExtended := false, canFlowControl_enable := false,
    canFlowControl_mode := 0, canFlowControl_addr := 0, canFlowControl_addrExtended := false,
    canFlowControl_data := [0, 0, 0, 0, 0], canFlowControl_dataLen := 0,
    canReceiveAddress_enable := false, canReceiveAddress_addr := 0,
    canReceiveAddress_addrExtended := false, print_linefeed := false, print_echo := false,
    print_header := false, print_dlc := false, print_space := false, timeout := 0,
    waitingForRequest := false, waitingForRequest_millis := 0,
    waitingForRequest_CANcount := 0, waitingForSearching := false,
    waitingForSearching_millis := 0 }

/-- A frame whose storage is all zero bits. -/
def zeroFrame : CAN_FRAME :=
  { id := 0, extended := false, rtr := 0, length := 0, data := [0, 0, 0, 0, 0, 0, 0, 0] }

/-! Helpers absent from the sources -/

/-- Modelled from the spec: `Utility::parseHexCharacter` is declared in `utility.h`, which is
not among the sources. The spec speaks of "decoding successive hex-digit pairs" and of
arguments made of "hex digits": the function gives a hex digit its value 0..15. Characters
that are no hex digit get 0. -/
def Utility.parseHexCharacter (chr : Char) : Nat :=
  if 48 ≤ chr.toNat ∧ chr.toNat ≤ 57 then chr.toNat - 48
  else if 65 ≤ chr.toNat ∧ chr.toNat ≤ 70 then 10 + (chr.toNat - 65)
  else if 97 ≤ chr.toNat ∧ chr.toNat ≤ 102 then 10 + (chr.toNat - 97)
  else 0

/-- Modelled from the spec: `Utility::parseHexString(str, length)` is declared in `utility.h`,
which is not among the sources. The spec's command table reads an argument of "3 hex digits",
"2 hex digits", "3 or 8 hex digits" as one number: the first `length` characters at `str`
are taken as hex digits, most significant first, into an `unsigned int`. -/
def Utility.parseHexString (str : Nat → Char) (length : Nat) : Nat :=
  ((List.range length).foldl
    (fun result i => result + Utility.parseHexCharacter (str i) * 16 ^ (length - i - 1)) 0)
    % 2 ^ 32

/-! C library pieces -/

/-- The C library `tolower` in the "C" locale. -/
def tolower (c : Char) : Char :=
  if 65 ≤ c.toNat ∧ c.toNat ≤ 90 then Char.ofNat (c.toNat + 32) else c

/-- The characters of the C string stored at the start of `buf`. -/
def cstr (buf : List Char) : List Char :=
  buf.takeWhile (fun c => c != '\x00')

/-- The test `!strncmp(cmd, lit, k)` on C strings. -/
def strncmp0 (cmd lit : List Char) (k : Nat) : Bool :=
  cmd.take k == lit.take k

/-- The test `!strcmp(cmd, lit)` on C strings. -/
def strcmp0 (cmd lit : List Char) : Bool :=
  cmd == lit

/-- The digits that `sprintf` writes for `%X`: upper-case hexadecimal. -/
def upperHex (v : Nat) : List Char :=
  (Nat.toDigits 16 v).map Char.toUpper

/-- Output of `sprintf(buff, "%03X", v)`: upper-case hex, zero-padded to width 3. -/
def sprintf03X (v : Nat) : List Char :=
  List.replicate (3 - (upperHex v).length) '0' ++ upperHex v

/-- Output of `sprintf(buff, "%02X", v)`: upper-case hex, zero-padded to width 2. -/
def sprintf02X (v : Nat) : List Char :=
  List.replicate (2 - (upperHex v).length) '0' ++ upperHex v

/-- Output of `sprintf(buff, "%u", v)`. -/
def sprintfU (v : Nat) : List Char :=
  Nat.toDigits 10 v

/-- Read of `frame.data.byte[i]`, a `uint8_t`. Positions 0..7 are the payload; a read at a
position past 7 leaves the payload and yields the byte stored behind it, which is the
further content of `data` when the list is longer than 8 and 0 otherwise. -/
def CAN_FRAME.byte (frame : CAN_FRAME) (i : Nat) : Nat :=
  frame.data.getD i 0 % 256

/-! Command normalizer (processELMCmd, lines 245-260) -/

/-- The normalization loop: reads `cmd[r]` for `r < 128` up to the first NUL, skips carriage
return, line feed and space, and stores the lower-cased remainder. The result is the C string
that `cmd` holds after `cmd[w] = 0`. -/
def normalize (cmd : List Char) : List Char :=
  (((cmd.take 128).takeWhile (fun c => c != '\x00')).filter
    (fun c => !((c == '\r' || c == '\n') || c == ' '))).map tolower

/-- Read of `cmd[k]` after the in-place normalization of the buffer `raw`: the normalized
string `n` occupies positions `0 .. n.length - 1`, position `n.length` holds the NUL written
by `cmd[w] = 0`, and every later position still holds what the buffer held before. -/
def cmdAt (raw n : List Char) (k : Nat) : Char :=
  if k < n.length then n.getD k '\x00'
  else if k = n.length then '\x00'
  else raw.getD k '\x00'

/-- The line ending chosen at the start of each operation from `print_linefeed`. -/
def lineEnding (s : ELM327Emu) : List Char :=
  if s.print_linefeed then "\r\n".toList else "\r".toList

/-! AT command dispatcher (processELMCmd, lines 263-611) -/

/-- The loop of the `atfcsd` handler (lines 523-525): for `i = 0, 1, ..` while `i*2 < idSize`
it stores `parseHexString(cmd+6+(i*2), 2)` into the `uint8_t` slot `canFlowControl_data[i]`.
`count` is the number of iterations. -/
def setFlowControlData (rd : Nat → Char) (count : Nat) (data : List Nat) : List Nat :=
  (List.range count).foldl
    (fun d i => d.set i (Utility.parseHexString (fun k => rd (6 + i * 2 + k)) 2 % 256)) data

/-- The body of the `atz` / `atws` handler (lines 557-596). The five assignments to
`canFlowControl_data[0..4]` overwrite the whole `uint8_t[5]` array. -/
def resetAll (s : ELM327Emu) : ELM327Emu :=
  { s with
    monitorAll_enable := false
    allowLongMessages := false
    canTransmitAddress := 0x7E0
    canAutomaticFormatting_enable := true
    canExtendedAddressing_enable := false
    canExtendedAddressing_data := 0x00
    canIdFilter_enable := false
    canIdFilter_addr := 0x00
    canIdFilter_addrExtended := false
    canFlowControl_enable := false
    canFlowControl_mode := 0
    canFlowControl_addr := 0
    canFlowControl_addrExtended := false
    canFlowControl_data := [0, 0, 0, 0, 0]
    canFlowControl_dataLen := 0
    canReceiveAddress_enable := false
    canReceiveAddress_addr := 0x00
    canReceiveAddress_addrExtended := false
    print_linefeed := false
    print_echo := false
    print_header := true
    print_dlc := false
    print_space := true
    timeout := 200
    waitingForRequest := false
    waitingForRequest_millis := 0
    waitingForRequest_CANcount := 0 }

/-- The probe frame of the `atsp0` handler (lines 355-367). -/
def searchProbe : CAN_FRAME :=
  { id := 0x7DF, extended := false, length := 8, rtr := 0,
    data := [0x02, 0x01, 0x00, 0x00, 0x00, 0x00, 0x00, 0x00] }

/-- The `if` / `else if` cascade of the AT branch (lines 297-606). `cmd` is the normalized
C string, `rd k` the read `cmd[k]`, `le` the line ending computed on entry. The outcome's
`reply` is what the chosen handler appends to `retString`. -/
def atDispatch (s : ELM327Emu) (millis : Nat) (cmd : List Char) (rd : Nat → Char)
    (le : List Char) : CmdOutcome :=
  if strncmp0 cmd "atsh".toList 4 then
    let idSize := cmd.length - 4
    ⟨{ s with canTransmitAddress := Utility.parseHexString (fun k => rd (4 + k)) idSize },
      "OK".toList, []⟩
  else if strncmp0 cmd "ate".toList 3 then
    let s1 := if rd 3 = '1' then { s with print_echo := true } else s
    let s2 := if rd 3 = '0' then { s1 with print_echo := false } else s1
    ⟨s2, "OK".toList, []⟩
  else if strncmp0 cmd "ath".toList 3 then
    ⟨if rd 3 = '1' then { s with print_header := true } else { s with print_header := false },
      "OK".toList, []⟩
  else if strncmp0 cmd "atl".toList 3 then
    ⟨if rd 3 = '1' then { s with print_linefeed := true }
      else { s with print_linefeed := false },
      "OK".toList, []⟩
  else if strcmp0 cmd "at@1".toList then ⟨s, "OBDLink MX".toList, []⟩
  else if strcmp0 cmd "ati".toList then ⟨s, "ELM327 v1.5".toList, []⟩
  else if strncmp0 cmd "atat".toList 4 then ⟨s, "OK".toList, []⟩
  else if strncmp0 cmd "atsp".toList 4 then
    if rd 4 = '0' then
      ⟨{ s with waitingForSearching_millis := millis, waitingForSearching := true },
        "SEARCHING...".toList, [searchProbe]⟩
    else if rd 4 = '6' then ⟨s, "OK".toList, []⟩
    else ⟨s, "?".toList, []⟩
  else if strcmp0 cmd "atdp".toList then ⟨s, "can11/500".toList, []⟩
  else if strcmp0 cmd "atdpn".toList then ⟨s, "6".toList, []⟩
  else if strncmp0 cmd "atd0".toList 4 then ⟨{ s with print_dlc := false }, "OK".toList, []⟩
  else if strncmp0 cmd "atd1".toList 4 then ⟨{ s with print_dlc := true }, "OK".toList, []⟩
  else if strcmp0 cmd "atd".toList then ⟨s, "OK".toList, []⟩
  else if strncmp0 cmd "atma".toList 4 then ⟨{ s with monitorAll_enable := true }, [], []⟩
  else if strncmp0 cmd "atm".toList 3 then ⟨s, "OK".toList, []⟩
  else if strcmp0 cmd "atrv".toList then ⟨s, "14.2V".toList, []⟩
  else if strcmp0 cmd "atar".toList then
    ⟨{ s with canReceiveAddress_enable := false }, "OK".toList, []⟩
  else if strcmp0 cmd "atal".toList then ⟨{ s with allowLongMessages := true }, "OK".toList, []⟩
  else if strcmp0 cmd "atnl".toList then
    ⟨{ s with allowLongMessages := false }, "OK".toList, []⟩
  else if strncmp0 cmd "atst".toList 4 then
    ⟨{ s with timeout := Utility.parseHexString (fun k => rd (4 + k)) 2 * 4 % 2 ^ 16 },
      "OK".toList, []⟩
  else if strncmp0 cmd "ats".toList 3 then
    if rd 3 = '0' then ⟨{ s with print_space := false }, "OK".toList, []⟩
    else if rd 3 = '1' then ⟨{ s with print_space := true }, "OK".toList, []⟩
    else ⟨s, "?".toList, []⟩
  else if strncmp0 cmd "atcaf".toList 5 then
    if rd 5 = '0' then ⟨{ s with canAutomaticFormatting_enable := false }, "OK".toList, []⟩
    else if rd 5 = '1' then ⟨{ s with canAutomaticFormatting_enable := true }, "OK".toList, []⟩
    else ⟨s, "?".toList, []⟩
  else if strncmp0 cmd "atcea".toList 5 then
    let idSize := (cmd.length - 5) % 256
    if idSize = 0 then ⟨{ s with canExtendedAddressing_enable := false }, [], []⟩
    else if idSize = 2 then
      ⟨{ s with
          canExtendedAddressing_enable := true
          canExtendedAddressing_data := Utility.parseHexString (fun k => rd (5 + k)) idSize },
        [], []⟩
    else ⟨s, "?".toList, []⟩
  else if strncmp0 cmd "atcfc".toList 5 then
    if rd 5 = '0' then ⟨{ s with canFlowControl_enable := false }, "OK".toList, []⟩
    else if rd 5 = '1' then ⟨{ s with canFlowControl_enable := true }, "OK".toList, []⟩
    else ⟨s, "?".toList, []⟩
  else if strncmp0 cmd "atfcsm".toList 6 then
    if 48 ≤ (rd 6).toNat ∧ (rd 6).toNat ≤ 50 then
      ⟨{ s with canFlowControl_mode := (rd 6).toNat - 48 }, "OK".toList, []⟩
    else ⟨s, "?".toList, []⟩
  else if strncmp0 cmd "atfcsh".toList 6 then
    let idSize := (cmd.length - 6) % 256
    if idSize = 3 then
      ⟨{ s with
          canFlowControl_addr := Utility.parseHexString (fun k => rd (6 + k)) idSize
          canFlowControl_addrExtended := false },
        "OK".toList, []⟩
    else if idSize = 8 then
      ⟨{ s with
          canFlowControl_addr := Utility.parseHexString (fun k => rd (6 + k)) idSize
          canFlowControl_addrExtended := true },
        "OK".toList, []⟩
    else ⟨s, "?".toList, []⟩
  else if strncmp0 cmd "atfcsd".toList 6 then
    let idSize := (cmd.length - 6) % 256
    if (1 < idSize ∧ idSize < 11) ∧ idSize % 2 = 0 then
      ⟨{ s with
          canFlowControl_data := setFlowControlData rd (idSize / 2) s.canFlowControl_data
          canFlowControl_dataLen := idSize / 2 },
        "OK".toList, []⟩
    else ⟨s, "?".toList, []⟩
  else if strncmp0 cmd "atcra".toList 5 then
    let idSize := (cmd.length - 5) % 256
    if idSize = 0 then ⟨{ s with canReceiveAddress_enable := false }, "OK".toList, []⟩
    else if idSize = 3 then
      ⟨{ s with
          canReceiveAddress_enable := true
          canReceiveAddress_addr := Utility.parseHexString (fun k => rd (5 + k)) idSize
          canReceiveAddress_addrExtended := false },
        "OK".toList, []⟩
    else ⟨s, "?".toList, []⟩
  else if strcmp0 cmd "atz".toList || strcmp0 cmd "atws".toList then
    ⟨resetAll s, "ELM327 v1.4 (ESP32RET)".toList ++ le, []⟩
  else ⟨s, "?".toList, []⟩

/-! Diagnostic request encoder (processELMCmd, lines 612-663) -/

/-- The filling loop `for (int j = 0; i < 8; i++, j+=2)` (lines 645-652) on the payload
`data` seen as a map from position to byte; `fuel` bounds the number of iterations. -/
def fillPayload (rd : Nat → Char) (cmdSize : Nat) :
    Nat → Nat → Nat → (Nat → Nat) → (Nat → Nat)
  | 0, _, _, data => data
  | fuel + 1, i, j, data =>
    if i < 8 then
      if j < cmdSize then
        fillPayload rd cmdSize fuel (i + 1) (j + 2)
          (Function.update data i
            ((((Utility.parseHexCharacter (rd j) <<< 4) &&& 0xF0)
              + (Utility.parseHexCharacter (rd (j + 1)) &&& 0x0F)) % 256))
      else
        fillPayload rd cmdSize fuel (i + 1) (j + 2) (Function.update data i 0xAA)
    else data

/-- The branch taken when the command does not start with `at` and `cmd[0]` is a hex digit
(lines 616-662). `fresh` is the value of the local `CAN_FRAME outFrame;` right after its
declaration: the branch assigns `id`, `extended`, `length`, `rtr` and payload bytes 3..7, and
bytes 0..2 only when the digit count passes the check of line 630. -/
def pidRequest (s : ELM327Emu) (millis : Nat) (fresh : CAN_FRAME) (cmd : List Char)
    (rd : Nat → Char) (le : List Char) : CmdOutcome :=
  let data0 : Nat → Nat :=
    Function.update (Function.update (Function.update (Function.update (Function.update
      (fun k => fresh.byte k) 3 0xAA) 4 0xAA) 5 0xAA) 6 0xAA) 7 0xAA
  let len := cmd.length
  let cmdSize := if len % 2 = 1 then len - 1 else len
  let valid : Bool := (0 < cmdSize ∧ cmdSize < 17) ∧ cmdSize % 2 = 0
  let i0 := 0
  let data1 :=
    if s.canExtendedAddressing_enable then
      Function.update data0 i0 (s.canExtendedAddressing_data % 256)
    else data0
  let i1 := if s.canExtendedAddressing_enable then i0 + 1 else i0
  let data2 :=
    if s.canAutomaticFormatting_enable then Function.update data1 i1 ((cmdSize / 2) % 256)
    else data1
  let i2 := if s.canAutomaticFormatting_enable then i1 + 1 else i1
  let data := if valid then fillPayload rd cmdSize 8 i2 0 data2 else data0
  let outFrame : CAN_FRAME :=
    { id := s.canTransmitAddress, extended := false, length := 8, rtr := 0,
      data := (List.range 8).map data }
  ⟨{ s with waitingForRequest_millis := millis, waitingForRequest := true },
    (if valid then [] else "?".toList) ++ le, [outFrame]⟩

/-- The test of line 612 on `cmd[0]`: a decimal digit or one of `a` .. `f`. -/
def startsWithHexDigit (c : Char) : Bool :=
  (48 ≤ c.toNat ∧ c.toNat ≤ 57) || c == 'a' || c == 'b' || c == 'c' || c == 'd' || c == 'e'
    || c == 'f'

/-- The statement `if (monitorAll_enable) monitorAll_enable = false;` (lines 234-236). -/
def clearMonitor (s : ELM327Emu) : ELM327Emu :=
  if s.monitorAll_enable then { s with monitorAll_enable := false } else s

/-- The member function `ELM327Emu::processELMCmd(char *cmd)` (lines 228-674). `raw` is the
content of the buffer `cmd` points to, `millis` the value `millis()` returns, `fresh` the value
of a just declared `CAN_FRAME`. -/
def processELMCmd (s : ELM327Emu) (millis : Nat) (fresh : CAN_FRAME) (raw : List Char) :
    CmdOutcome :=
  let le := lineEnding s
  let s0 := clearMonitor s
  let echo := if s.print_echo then cstr raw ++ le else []
  let cmd := normalize raw
  let rd := cmdAt raw cmd
  if strncmp0 cmd "at".toList 2 then
    let r := atDispatch s0 millis cmd rd le
    ⟨r.state, echo ++ r.reply ++ le ++ ">".toList, r.sent⟩
  else if startsWithHexDigit (rd 0) then
    let r := pidRequest s0 millis fresh cmd rd le
    ⟨r.state, echo ++ r.reply, r.sent⟩
  else
    ⟨s0, echo ++ "?".toList ++ le ++ ">".toList, []⟩

/-! Reply formatter (processCANReply, lines 676-835) -/

/-- The size of the local array `char buff[8]` that `processCANReply` (line 687) and
`processCANSearching` (line 879) hand to `sprintf`. -/
def buffSize : Nat := 8

/-- The number of bytes a call `sprintf(buff, ...)` stores when its output is `text`: the
characters of the output and the terminating NUL. -/
def sprintfStores (text : List Char) : Nat :=
  text.length + 1

/-- Whether `sprintf(buff, "%03X", frame.id)` (lines 688-690) stays inside `char buff[8]`.
The call is made only when `print_header` is set, and it is the first thing
`processCANReply` does with the frame. With an identifier of 8 hex digits it stores 9 bytes:
the write leaves the array and the call of `processCANReply` has no defined behaviour from
there on. The other `sprintf` calls store at most 3 bytes (`%u` of a payload length 0..8,
`%02X` of a `uint8_t`). -/
def headerInBuff (s : ELM327Emu) (frame : CAN_FRAME) : Bool :=
  !s.print_header || decide (sprintfStores (sprintf03X frame.id) ≤ buffSize)

/-- The text in front of the payload (lines 688-704, 897-909): optional identifier, optional
space, optional length field with its optional space. The identifier is the output of
`sprintf(buff, "%03X", frame.id)` as the C library defines it; the source obtains it through
`char buff[8]`, so it is the text of the program only where `headerInBuff` holds (in
`processCANSearching` the identifier is at most 0x7EF when the header is formatted). -/
def headerText (s : ELM327Emu) (frame : CAN_FRAME) : List Char :=
  (if s.print_header then sprintf03X frame.id else [])
    ++ (if s.print_space then " ".toList else [])
    ++ (if s.print_dlc then
          sprintfU frame.length ++ (if s.print_space then " ".toList else [])
        else [])

/-- The loops of lines 804-808, 813-817 and 819-823: for `i = 0 .. count-1` an optional
separating space when `i > 0`, then `frame.data.byte[i + offset]` as `%02X`. -/
def payloadText (s : ELM327Emu) (frame : CAN_FRAME) (count offset : Nat) : List Char :=
  (List.range count).foldl
    (fun acc i =>
      acc ++ (if 0 < i ∧ s.print_space then " ".toList else [])
        ++ sprintf02X (frame.byte (i + offset))) []

/-- The padded flow-control payload of lines 752-757 and 772-777. -/
def flowControlPayload (s : ELM327Emu) : List Nat :=
  (List.range 8).map
    (fun i => if i < s.canFlowControl_dataLen then s.canFlowControl_data.getD i 0 else 0xAA)

/-- The identifier of an automatic flow-control answer (lines 723-726, 764-767). -/
def mirrorId (id : Nat) : Nat :=
  if 0x7E8 ≤ id then id - 8 else (id + 8) % 2 ^ 32

/-- The address test of line 708, in `uint32_t` arithmetic. -/
def addressMatches (s : ELM327Emu) (frame : CAN_FRAME) : Bool :=
  (s.canReceiveAddress_enable = false
      ∧ (frame.id = (s.canTransmitAddress + 2 ^ 32 - 8) % 2 ^ 32
          ∨ frame.id = (s.canTransmitAddress + 8) % 2 ^ 32))
    ∨ (s.canReceiveAddress_enable = true ∧ frame.id = s.canReceiveAddress_addr)

/-- The flow-control answer to a first frame (lines 720-782): the session afterwards and the
frames sent. -/
def flowControlAnswer (s : ELM327Emu) (millis : Nat) (frame : CAN_FRAME) :
    ELM327Emu × List CAN_FRAME :=
  if s.canFlowControl_enable then
    if s.canFlowControl_mode = 0 then
      ({ s with waitingForRequest_millis := millis, waitingForRequest := true },
        [{ id := mirrorId frame.id, extended := false, length := 8, rtr := 0,
           data := [0x30, 0x00, 0x00, 0x00, 0x00, 0x00, 0x00, 0x00] }])
    else if s.canFlowControl_mode = 1 then
      ({ s with waitingForRequest_millis := millis, waitingForRequest := true },
        [{ id := s.canFlowControl_addr, extended := s.canFlowControl_addrExtended,
           length := 8, rtr := 0, data := flowControlPayload s }])
    else if s.canFlowControl_mode = 2 then
      ({ s with waitingForRequest_millis := millis, waitingForRequest := true },
        [{ id := mirrorId frame.id, extended := false, length := 8, rtr := 0,
           data := flowControlPayload s }])
    else (s, [])
  else (s, [])

/-- The member function `ELM327Emu::processCANReply(CAN_FRAME &frame)` (lines 676-835): the
outcome of the call when the `sprintf` of line 690 stays inside `buff`, that is when
`headerInBuff s frame` holds. When it does not hold the source writes behind `buff` before
anything else happens, and no outcome is defined for the call. -/
def processCANReply (s : ELM327Emu) (millis : Nat) (frame : CAN_FRAME) : BusOutcome :=
  let le := lineEnding s
  let header := headerText s frame
  let multi_frame_id := frame.byte 0 &&& 0xF0
  let isMulti : Bool := multi_frame_id = 0x10 ∨ multi_frame_id = 0x20 ∨ multi_frame_id = 0x30
  let hit : Bool := s.waitingForRequest && addressMatches s frame
  let multiframe : Bool := hit && isMulti
  let send : Bool := !(hit && isMulti && !s.allowLongMessages)
  let counted : ELM327Emu :=
    { s with waitingForRequest_CANcount := (s.waitingForRequest_CANcount + 1) % 2 ^ 16 }
  let step : ELM327Emu × List CAN_FRAME :=
    if hit then
      if isMulti then
        if s.allowLongMessages then
          if multi_frame_id = 0x10 then flowControlAnswer counted millis frame
          else (counted, [])
        else (s, [])
      else (counted, [])
    else (s, [])
  let retString :=
    if multiframe then header ++ payloadText s frame 8 0 ++ le
    else if s.canAutomaticFormatting_enable then
      header ++ payloadText s frame (frame.byte 0) 1 ++ le
    else header ++ payloadText s frame 8 0 ++ le
  ⟨step.1, if send then some retString else none, step.2⟩

/-! Completion monitors (lines 837-935) -/

/-- The member function `ELM327Emu::processCANWaiting(CAN_FRAME &frame)` (lines 837-859);
the frame argument is not read. -/
def processCANWaiting (s : ELM327Emu) (millis : Nat) : BusOutcome :=
  let le := lineEnding s
  if (millis + 2 ^ 32 - s.waitingForRequest_millis) % 2 ^ 32 > s.timeout then
    ⟨{ s with waitingForRequest := false, waitingForRequest_CANcount := 0 },
      some ((if s.waitingForRequest_CANcount = 0 then "NO DATA".toList else [])
        ++ le ++ ">".toList), []⟩
  else ⟨s, none, []⟩

/-- The member function `ELM327Emu::processCANSearching(CAN_FRAME &frame)`
(lines 873-935). -/
def processCANSearching (s : ELM327Emu) (millis : Nat) (frame : CAN_FRAME) : BusOutcome :=
  let le := lineEnding s
  if s.waitingForSearching then
    if (millis + 2 ^ 32 - s.waitingForSearching_millis) % 2 ^ 32 > 1000 then
      ⟨{ s with waitingForSearching := false },
        some ("UNABLE TO CONNECT".toList ++ le ++ ">".toList), []⟩
    else if 0x7E8 ≤ frame.id ∧ frame.id ≤ 0x7EF then
      if frame.byte 1 = 0x41 ∧ frame.byte 2 = 0x00 then
        ⟨{ s with waitingForSearching := false },
          some (headerText s frame
            ++ (if s.canAutomaticFormatting_enable then payloadText s frame (frame.byte 0) 1
                else payloadText s frame 8 0)
            ++ le ++ ">".toList), []⟩
      else ⟨s, none, []⟩
    else ⟨s, none, []⟩
  else ⟨s, none, []⟩

/-! Vocabulary of the specification -/

/-- The Session Configuration of the specification (section 3): the settings that commands
change and that a reset restores. -/
structure SessionConfiguration where
  echo : Bool
  header : Bool
  linefeed : Bool
  space : Bool
  dlc : Bool
  automaticFormatting : Bool
  longMessages : Bool
  transmitAddress : Nat
  extendedAddressing : Bool
  extendedAddressingByte : Nat
  receiveAddressEnabled : Bool
  receiveAddress : Nat
  receiveAddressExtended : Bool
  flowControl : Bool
  flowControlMode : Nat
  flowControlAddress : Nat
  flowControlExtended : Bool
  flowControlData : List Nat
  flowControlDataCount : Nat
  timeout : Nat
deriving DecidableEq, Repr

/-- The Session Configuration held by a session object. -/
def sessionConfiguration (s : ELM327Emu) : SessionConfiguration :=
  { echo := s.print_echo, header := s.print_header, linefeed := s.print_linefeed,
    space := s.print_space, dlc := s.print_dlc,
    automaticFormatting := s.canAutomaticFormatting_enable,
    longMessages := s.allowLongMessages, transmitAddress := s.canTransmitAddress,
    extendedAddressing := s.canExtendedAddressing_enable,
    extendedAddressingByte := s.canExtendedAddressing_data,
    receiveAddressEnabled := s.canReceiveAddress_enable,
    receiveAddress := s.canReceiveAddress_addr,
    receiveAddressExtended := s.canReceiveAddress_addrExtended,
    flowControl := s.canFlowControl_enable, flowControlMode := s.canFlowControl_mode,
    flowControlAddress := s.canFlowControl_addr,
    flowControlExtended := s.canFlowControl_addrExtended,
    flowControlData := s.canFlowControl_data,
    flowControlDataCount := s.canFlowControl_dataLen, timeout := s.timeout }

/-- The documented defaults: echo off, headers on, line feed off, spaces on, data-length
printing off, automatic formatting on, long messages not allowed, transmit address 0x7E0,
extended addressing off with byte 0, receive-address filter off with address 0, flow control
off with mode 0, address 0, not extended, five data bytes 0 and count 0, timeout 200 ms. -/
def defaultConfiguration : SessionConfiguration :=
  { echo := false, header := true, linefeed := false, space := true, dlc := false,
    automaticFormatting := true, longMessages := false, transmitAddress := 0x7E0,
    extendedAddressing := false, extendedAddressingByte := 0,
    receiveAddressEnabled := false, receiveAddress := 0, receiveAddressExtended := false,
    flowControl := false, flowControlMode := 0, flowControlAddress := 0,
    flowControlExtended := false, flowControlData := [0, 0, 0, 0, 0],
    flowControlDataCount := 0, timeout := 200 }

/-- The session right after construction of an object with zeroed storage. -/
def constructed : ELM327Emu := ELM327Emu.ELM327Emu zeroMemory

/-- The reply frame of the specification's example: id 0x7E8,
data 06 41 00 BE 3F B8 11 AA. -/
def replyFrame : CAN_FRAME :=
  { id := 0x7E8, extended := false, rtr := 0, length := 8,
    data := [0x06, 0x41, 0x00, 0xBE, 0x3F, 0xB8, 0x11, 0xAA] }

/-- The session that a constructed object reaches through the given command lines, all
received at clock 0. -/
def sessionAfter (lines : List String) : ELM327Emu :=
  lines.foldl (fun s line => (processELMCmd s 0 zeroFrame line.toList).state) constructed

/-- A single-frame reply from the 29-bit identifier 0x18DAF118, the answer address of a
session whose transmit address is 0x18DAF110. -/
def extendedReplyFrame : CAN_FRAME :=
  { replyFrame with id := 0x18DAF118, extended := true }

/-- The hex digits of a normalized (lower-cased) command. -/
def hexDigits : List Char := "0123456789abcdef".toList

/-- The value of a hex digit: its position in `0123456789abcdef`. -/
def hexDigitValue (c : Char) : Nat := hexDigits.indexOf c

/-- The bytes decoded from successive hex-digit pairs; a trailing single digit is dropped. -/
def hexPairs : List Char → List Nat
  | a :: b :: rest => (16 * hexDigitValue a + hexDigitValue b) :: hexPairs rest
  | _ => []

/-- The payload the specification describes for a request `n`: the extended-addressing byte
if extended addressing is enabled, then the digit-pair count if automatic formatting is
enabled, then the decoded pairs, then the sentinel 0xAA, cut to 8 bytes. -/
def expectedPayload (s : ELM327Emu) (n : List Char) : List Nat :=
  ((if s.canExtendedAddressing_enable then [s.canExtendedAddressing_data % 256] else [])
    ++ (if s.canAutomaticFormatting_enable then [n.length / 2] else [])
    ++ hexPairs n ++ List.replicate 8 0xAA).take 8

/-- The upper-case hex digits of the output grammar. -/
def upperHexDigits : List Char := "0123456789ABCDEF".toList

/-- A byte as a group of two upper-case hex digits. -/
def twoHexDigits (b : Nat) : List Char :=
  [upperHexDigits.getD (b / 16) '?', upperHexDigits.getD (b % 16) '?']

/-- Groups written one after the other with `sep` between neighbours. -/
def joinGroups (sep : List Char) : List (List Char) → List Char
  | [] => []
  | [g] => g
  | g :: h :: gs => g ++ sep ++ joinGroups sep (h :: gs)

/-- The separator between payload groups: a space when spaces are on, nothing otherwise. -/
def separator (s : ELM327Emu) : List Char :=
  if s.print_space then " ".toList else []

/-- The echo in front of a reply: the received line and a line ending when echo is on. -/
def echoText (s : ELM327Emu) (raw : List Char) : List Char :=
  if s.print_echo then cstr raw ++ lineEnding s else []

/-- Normalized commands whose argument a validating handler rejects: the command word of the
handler followed by an argument `arg` of the wrong shape. The first character of `arg` decides
for set-protocol (neither 0 nor 6), the space, auto-format and flow-control toggles (neither 0
nor 1) and flow-control-mode (none of 0, 1, 2); the number of characters of `arg` decides for
extended-address (neither 0 nor 2), flow-control-header (neither 3 nor 8), flow-control-data
(not an even number from 2 to 10) and receive-address (neither 0 nor 3). An argument of the
space toggle starting with `h`, `p` or `t` makes one of the commands `atsh`, `atsp`, `atst`
and is excluded. -/
inductive MalformedArgument : List Char → Prop
  | setProtocol (arg : List Char) :
      arg.head? ≠ some '0' → arg.head? ≠ some '6' → MalformedArgument ("atsp".toList ++ arg)
  | spaceToggle (arg : List Char) :
      arg.head? ≠ some '0' → arg.head? ≠ some '1' → arg.head? ≠ some 'h' →
      arg.head? ≠ some 'p' → arg.head? ≠ some 't' → MalformedArgument ("ats".toList ++ arg)
  | autoFormatToggle (arg : List Char) :
      arg.head? ≠ some '0' → arg.head? ≠ some '1' → MalformedArgument ("atcaf".toList ++ arg)
  | extendedAddress (arg : List Char) :
      arg.length ≠ 0 → arg.length ≠ 2 → MalformedArgument ("atcea".toList ++ arg)
  | flowControlToggle (arg : List Char) :
      arg.head? ≠ some '0' → arg.head? ≠ some '1' → MalformedArgument ("atcfc".toList ++ arg)
  | flowControlMode (arg : List Char) :
      arg.head? ≠ some '0' → arg.head? ≠ some '1' → arg.head? ≠ some '2' →
      MalformedArgument ("atfcsm".toList ++ arg)
  | flowControlHeader (arg : List Char) :
      arg.length ≠ 3 → arg.length ≠ 8 → MalformedArgument ("atfcsh".toList ++ arg)
  | flowControlData (arg : List Char) :
      ¬ ((2 ≤ arg.length ∧ arg.length ≤ 10) ∧ arg.length % 2 = 0) →
      MalformedArgument ("atfcsd".toList ++ arg)
  | receiveAddress (arg : List Char) :
      arg.length ≠ 0 → arg.length ≠ 3 → MalformedArgument ("atcra".toList ++ arg)

/-- The number of characters left after dropping an odd trailing one (lines 627-628). -/
def trimmedCount (len : Nat) : Nat := len - len % 2

/-- A frame that answers the search probe: identifier in the ECU reply range 0x7E8..0x7EF
with service 0x41 and PID 0x00 in data bytes 1 and 2. -/
def qualifiesForSearch (frame : CAN_FRAME) : Prop :=
  (0x7E8 ≤ frame.id ∧ frame.id ≤ 0x7EF) ∧ frame.byte 1 = 0x41 ∧ frame.byte 2 = 0x00

instance (frame : CAN_FRAME) : Decidable (qualifiesForSearch frame) := by
  unfold qualifiesForSearch
  infer_instance

/-- A run of `processCANSearching` polls, each with its clock value and the frame offered:
the session at the end and what each poll emitted. -/
def searchPolls (s : ELM327Emu) : List (Nat × CAN_FRAME) → ELM327Emu × List (Option (List Char))
  | [] => (s, [])
  | p :: rest =>
    ((searchPolls (processCANSearching s p.1 p.2).state rest).1,
      (processCANSearching s p.1 p.2).emitted
        :: (searchPolls (processCANSearching s p.1 p.2).state rest).2)

/-- The ASCII upper-case letters. -/
def upperLetters : List Char := "ABCDEFGHIJKLMNOPQRSTUVWXYZ".toList

/-- The ASCII lower-case letters, in the same order. -/
def lowerLetters : List Char := "abcdefghijklmnopqrstuvwxyz".toList

/-- The lowercase form of a character: an ASCII upper-case letter becomes the lower-case
letter at the same place of the alphabet, every other character stays. -/
def lowercaseForm (c : Char) : Char :=
  if c ∈ upperLetters then lowerLetters.getD (upperLetters.indexOf c) c else c

/-- The normal form the specification describes: carriage returns, line feeds and spaces
deleted, upper-case letters replaced by their lowercase form, order kept. -/
def specNormalForm (line : List Char) : List Char :=
  (line.filter (fun c => c ∉ ['\r', '\n', ' '])).map lowercaseForm

/-- The payload positions that a formatting loop reads (lines 804-808, 813-817, 819-823,
912-916, 918-922): `frame.data.byte[i + offset]` for `i = 0 .. count - 1`. -/
def payloadReads (count offset : Nat) : List Nat :=
  (List.range count).map (fun i => i + offset)

/-- The payload positions read by the formatting of `processCANReply` (lines 803-828): the
raw dump reads 0..7, the automatic formatting reads `i + 1` for `i` below data byte 0. -/
def replyReads (s : ELM327Emu) (frame : CAN_FRAME) : List Nat :=
  let multi_frame_id := frame.byte 0 &&& 0xF0
  let isMulti : Bool := multi_frame_id = 0x10 ∨ multi_frame_id = 0x20 ∨ multi_frame_id = 0x30
  let hit : Bool := s.waitingForRequest && addressMatches s frame
  if hit && isMulti then payloadReads 8 0
  else if s.canAutomaticFormatting_enable then payloadReads (frame.byte 0) 1
  else payloadReads 8 0

/-- The payload positions read by the formatting of `processCANSearching`
(lines 911-923) when it formats a frame. -/
def searchingReads (s : ELM327Emu) (frame : CAN_FRAME) : List Nat :=
  if s.canAutomaticFormatting_enable then payloadReads (frame.byte 0) 1
  else payloadReads 8 0

/-- The text of a frame formatted on the single-frame path (lines 688-704 and 812-827):
header part, payload groups chosen by the automatic-formatting setting, line ending. -/
def singleFrameText (s : ELM327Emu) (frame : CAN_FRAME) : List Char :=
  headerText s frame
    ++ joinGroups (separator s)
        (if s.canAutomaticFormatting_enable then
          (List.range (frame.byte 0)).map (fun i => twoHexDigits (frame.byte (i + 1)))
         else (List.range 8).map (fun i => twoHexDigits (frame.byte i)))
    ++ lineEnding s

/-- The text of a frame dumped on the multi-frame path (lines 688-704 and 803-809): header
part, the 8 raw bytes, line ending. -/
def rawDumpText (s : ELM327Emu) (frame : CAN_FRAME) : List Char :=
  headerText s frame
    ++ joinGroups (separator s) ((List.range 8).map (fun i => twoHexDigits (frame.byte i)))
    ++ lineEnding s

/-! General facts about the embedding -/

theorem normalize_length_le (raw : List Char) : (normalize raw).length ≤ 128 := by
  unfold normalize
  rw [List.length_map]
  calc _ ≤ ((raw.take 128).takeWhile (fun c => c != '\x00')).length := List.length_filter_le _ _
    _ ≤ (raw.take 128).length := (List.takeWhile_sublist _).length_le
    _ ≤ 128 := List.length_take_le _ _

theorem char_eq_of_toNat (c : Char) (n : Nat) (h : c.toNat = n) : c = Char.ofNat n := by
  rw [← h, Char.ofNat_toNat]

theorem clearMonitor_fields (s : ELM327Emu) :
    (clearMonitor s).canTransmitAddress = s.canTransmitAddress
      ∧ (clearMonitor s).canExtendedAddressing_enable = s.canExtendedAddressing_enable
      ∧ (clearMonitor s).canExtendedAddressing_data = s.canExtendedAddressing_data
      ∧ (clearMonitor s).canAutomaticFormatting_enable = s.canAutomaticFormatting_enable := by
  unfold clearMonitor
  split <;> exact ⟨rfl, rfl, rfl, rfl⟩

theorem clearMonitor_configuration (s : ELM327Emu) :
    sessionConfiguration (clearMonitor s) = sessionConfiguration s := by
  unfold clearMonitor
  split <;> rfl

/-- A command that starts with `at` goes through the AT cascade, and its reply is closed by
the line ending computed on entry and the prompt. -/
theorem processELMCmd_at (s : ELM327Emu) (millis : Nat) (fresh : CAN_FRAME) (raw : List Char)
    (h : (normalize raw).take 2 = "at".toList) :
    processELMCmd s millis fresh raw =
      ⟨(atDispatch (clearMonitor s) millis (normalize raw) (cmdAt raw (normalize raw))
          (lineEnding s)).state,
        echoText s raw
          ++ (atDispatch (clearMonitor s) millis (normalize raw) (cmdAt raw (normalize raw))
                (lineEnding s)).reply
          ++ lineEnding s ++ ">".toList,
        (atDispatch (clearMonitor s) millis (normalize raw) (cmdAt raw (normalize raw))
          (lineEnding s)).sent⟩ := by
  simp [processELMCmd, strncmp0, h, echoText]

theorem atDispatch_reset (s : ELM327Emu) (millis : Nat) (cmd : List Char) (rd : Nat → Char)
    (le : List Char) (h : cmd = "atz".toList ∨ cmd = "atws".toList) :
    atDispatch s millis cmd rd le
      = ⟨resetAll s, "ELM327 v1.4 (ESP32RET)".toList ++ le, []⟩ := by
  rcases h with h | h <;> subst h <;> simp [atDispatch, strncmp0, strcmp0]

theorem reset_starts_with_at (cmd : List Char)
    (h : cmd = "atz".toList ∨ cmd = "atws".toList) : cmd.take 2 = "at".toList := by
  rcases h with h | h <;> rw [h] <;> rfl

/-! Hex digits and the request encoder -/

theorem parseHexCharacter_hexDigit (c : Char) (h : c ∈ hexDigits) :
    Utility.parseHexCharacter c = hexDigitValue c ∧ hexDigitValue c < 16 := by
  simp only [hexDigits, String.toList, List.mem_cons, List.mem_singleton, List.not_mem_nil,
    or_false] at h
  rcases h with h | h | h | h | h | h | h | h | h | h | h | h | h | h | h | h <;>
    subst h <;> decide

theorem decode_pair (a b : Char) (ha : a ∈ hexDigits) (hb : b ∈ hexDigits) :
    (((Utility.parseHexCharacter a <<< 4) &&& 0xF0)
      + (Utility.parseHexCharacter b &&& 0x0F)) % 256
      = 16 * hexDigitValue a + hexDigitValue b := by
  obtain ⟨ea, la⟩ := parseHexCharacter_hexDigit a ha
  obtain ⟨eb, lb⟩ := parseHexCharacter_hexDigit b hb
  rw [ea, eb]
  generalize hexDigitValue a = x at la
  generalize hexDigitValue b = y at lb
  interval_cases x <;> interval_cases y <;> rfl

theorem hexDigit_ne_t (c : Char) (h : c ∈ hexDigits) : c ≠ 't' := by
  rintro rfl
  revert h
  decide

theorem startsWithHexDigit_of_mem (c : Char) (h : c ∈ hexDigits) :
    startsWithHexDigit c = true := by
  simp only [hexDigits, String.toList, List.mem_cons, List.mem_singleton, List.not_mem_nil,
    or_false] at h
  rcases h with h | h | h | h | h | h | h | h | h | h | h | h | h | h | h | h <;>
    subst h <;> decide

/-- A command whose first character is a hex digit and whose second is not `t` takes the
diagnostic request branch. -/
theorem processELMCmd_pid (s : ELM327Emu) (millis : Nat) (fresh : CAN_FRAME) (raw : List Char)
    (c : Char) (rest : List Char) (hn : normalize raw = c :: rest) (hc : c ∈ hexDigits)
    (hat : rest.head? ≠ some 't') :
    processELMCmd s millis fresh raw =
      ⟨(pidRequest (clearMonitor s) millis fresh (normalize raw) (cmdAt raw (normalize raw))
          (lineEnding s)).state,
        echoText s raw
          ++ (pidRequest (clearMonitor s) millis fresh (normalize raw)
                (cmdAt raw (normalize raw)) (lineEnding s)).reply,
        (pidRequest (clearMonitor s) millis fresh (normalize raw) (cmdAt raw (normalize raw))
          (lineEnding s)).sent⟩ := by
  have h1 : strncmp0 (normalize raw) "at".toList 2 = false := by
    rw [hn]
    rcases rest with _ | ⟨d, rest⟩
    · simp [strncmp0]
    · simp only [List.head?_cons, ne_eq, Option.some.injEq] at hat
      simp [strncmp0, hat]
  have h2 : startsWithHexDigit (cmdAt raw (normalize raw) 0) = true := by
    rw [hn]
    simpa [cmdAt] using startsWithHexDigit_of_mem c hc
  simp only [processELMCmd, h1, h2, echoText]
  simp

/-- A request made of hex digits takes the diagnostic request branch. -/
theorem processELMCmd_hex (s : ELM327Emu) (millis : Nat) (fresh : CAN_FRAME) (raw : List Char)
    (hall : ∀ c ∈ normalize raw, c ∈ hexDigits) (hlo : 1 ≤ (normalize raw).length) :
    processELMCmd s millis fresh raw =
      ⟨(pidRequest (clearMonitor s) millis fresh (normalize raw) (cmdAt raw (normalize raw))
          (lineEnding s)).state,
        echoText s raw
          ++ (pidRequest (clearMonitor s) millis fresh (normalize raw)
                (cmdAt raw (normalize raw)) (lineEnding s)).reply,
        (pidRequest (clearMonitor s) millis fresh (normalize raw) (cmdAt raw (normalize raw))
          (lineEnding s)).sent⟩ := by
  obtain ⟨c, rest, hn⟩ : ∃ c rest, normalize raw = c :: rest := by
    cases h : normalize raw with
    | nil => rw [h] at hlo; simp at hlo
    | cons c rest => exact ⟨c, rest, rfl⟩
  have hc : c ∈ hexDigits := hall c (by rw [hn]; simp)
  have hat : rest.head? ≠ some 't' := by
    intro h
    rcases rest with _ | ⟨d, rest⟩
    · simp at h
    · simp only [List.head?_cons, Option.some.injEq] at h
      exact hexDigit_ne_t d (hall d (by rw [hn]; simp)) h
  exact processELMCmd_pid s millis fresh raw c rest hn hc hat

/-- The filling loop, position by position: it writes positions `i .. min (i + fuel) 8 - 1`,
a decoded pair while digits remain and the sentinel afterwards, and leaves the rest. -/
theorem fillPayload_apply (rd : Nat → Char) (cmdSize : Nat) :
    ∀ (fuel i j : Nat) (data : Nat → Nat) (k : Nat),
      fillPayload rd cmdSize fuel i j data k
        = if i ≤ k ∧ k < i + fuel ∧ k < 8 then
            (if j + 2 * (k - i) < cmdSize then
              (((Utility.parseHexCharacter (rd (j + 2 * (k - i))) <<< 4) &&& 0xF0)
                + (Utility.parseHexCharacter (rd (j + 2 * (k - i) + 1)) &&& 0x0F)) % 256
             else 0xAA)
          else data k := by
  intro fuel
  induction fuel with
  | zero =>
    intro i j data k
    have h0 : ¬ (i ≤ k ∧ k < i + 0 ∧ k < 8) := by omega
    rw [if_neg h0]
    rfl
  | succ fuel ih =>
    intro i j data k
    unfold fillPayload
    by_cases hi : i < 8
    · by_cases hj : j < cmdSize
      · simp only [hi, hj, if_true, ih]
        by_cases hk : k = i
        · subst hk
          have h1 : ¬ (k + 1 ≤ k ∧ k < k + 1 + fuel ∧ k < 8) := by omega
          have h2 : (k ≤ k ∧ k < k + (fuel + 1) ∧ k < 8) := by omega
          simp [h1, h2, hj]
        · by_cases hlt : i + 1 ≤ k ∧ k < i + 1 + fuel ∧ k < 8
          · have h2 : (i ≤ k ∧ k < i + (fuel + 1) ∧ k < 8) := by omega
            have e : j + 2 + 2 * (k - (i + 1)) = j + 2 * (k - i) := by omega
            simp only [hlt, h2, and_self, if_true, e]
          · have h2 : ¬ (i ≤ k ∧ k < i + (fuel + 1) ∧ k < 8) := by omega
            simp only [hlt, h2, if_false, Function.update_apply, hk]
      · simp only [hi, hj, if_true, if_false, ih]
        by_cases hk : k = i
        · subst hk
          have h1 : ¬ (k + 1 ≤ k ∧ k < k + 1 + fuel ∧ k < 8) := by omega
          have h2 : (k ≤ k ∧ k < k + (fuel + 1) ∧ k < 8) := by omega
          simp [h1, h2, hj]
        · by_cases hlt : i + 1 ≤ k ∧ k < i + 1 + fuel ∧ k < 8
          · have h2 : (i ≤ k ∧ k < i + (fuel + 1) ∧ k < 8) := by omega
            have e : j + 2 + 2 * (k - (i + 1)) = j + 2 * (k - i) := by omega
            have hj2 : ¬ (j + 2 * (k - i) < cmdSize) := by omega
            simp only [hlt, h2, and_self, if_true, e, hj2, if_false]
          · have h2 : ¬ (i ≤ k ∧ k < i + (fuel + 1) ∧ k < 8) := by omega
            simp only [hlt, h2, if_false, Function.update_apply, hk]
    · have h2 : ¬ (i ≤ k ∧ k < i + (fuel + 1) ∧ k < 8) := by omega
      simp only [hi, h2, if_false]

theorem map_range8_getD (g : Nat → Nat) (k : Nat) (hk : k < 8) :
    ((List.range 8).map g).getD k 0 = g k := by
  interval_cases k <;> rfl

set_option maxHeartbeats 4000000 in
/-- The frame of a well-formed request of 2 to 16 hex digits, by the number of digits. -/
theorem pidRequest_sent (s : ELM327Emu) (millis : Nat) (fresh : CAN_FRAME)
    (raw le n : List Char) (hall : ∀ c ∈ n, c ∈ hexDigits) (hev : n.length % 2 = 0)
    (hlo : 2 ≤ n.length) (hhi : n.length ≤ 16) :
    (pidRequest s millis fresh n (cmdAt raw n) le).sent
      = [{ id := s.canTransmitAddress, extended := false, rtr := 0, length := 8,
           data := expectedPayload s n }] := by
  rcases n with _ | ⟨c0, _ | ⟨c1, _ | ⟨c2, _ | ⟨c3, _ | ⟨c4, _ | ⟨c5, _ | ⟨c6, _ | ⟨c7,
    _ | ⟨c8, _ | ⟨c9, _ | ⟨c10, _ | ⟨c11, _ | ⟨c12, _ | ⟨c13, _ | ⟨c14, _ | ⟨c15,
    _ | ⟨c16, n⟩⟩⟩⟩⟩⟩⟩⟩⟩⟩⟩⟩⟩⟩⟩⟩⟩
  all_goals first
    | (simp at hev; done)
    | (simp at hlo; done)
    | (simp at hhi; done)
    | (simp only [List.mem_cons, List.mem_singleton, forall_eq_or_imp, forall_eq,
        List.not_mem_nil] at hall
       cases hE : s.canExtendedAddressing_enable <;>
       cases hA : s.canAutomaticFormatting_enable <;>
       simp [pidRequest, fillPayload, cmdAt, Function.update, hexPairs, expectedPayload, hE, hA,
         decode_pair, hall, List.range_succ, List.replicate])

/-! The reply formatter -/

theorem toDigitsCore_length_ge (b fuel n : Nat) (ds : List Char) :
    ds.length ≤ (Nat.toDigitsCore b fuel n ds).length := by
  induction fuel generalizing n ds with
  | zero => simp [Nat.toDigitsCore]
  | succ f ih =>
    simp only [Nat.toDigitsCore]
    split
    · simp
    · exact le_trans (by simp) (ih _ _)

theorem toDigitsCore_length_lower (b : Nat) (hb : 2 ≤ b) (k : Nat) :
    ∀ (fuel n : Nat) (ds : List Char), b ^ k ≤ n → n < fuel →
      ds.length + k + 1 ≤ (Nat.toDigitsCore b fuel n ds).length := by
  induction k with
  | zero =>
    intro fuel n ds _ hf
    cases fuel with
    | zero => omega
    | succ f =>
      simp only [Nat.toDigitsCore]
      split
      · simp
      · exact le_trans (by simp) (toDigitsCore_length_ge _ _ _ _)
  | succ k ih =>
    intro fuel n ds hn hf
    cases fuel with
    | zero => omega
    | succ f =>
      have hq : b ^ k ≤ n / b := by
        rw [Nat.le_div_iff_mul_le (by omega)]
        rw [pow_succ] at hn
        exact hn
      have hn1 : 0 < n := lt_of_lt_of_le (pow_pos (by omega) (k + 1)) hn
      have hlt : n / b < f := by
        have : n / b < n := Nat.div_lt_self hn1 (by omega)
        omega
      simp only [Nat.toDigitsCore]
      split
      · have hpos : 0 < b ^ k := pow_pos (by omega) k
        omega
      · have := ih f (n / b) (Nat.digitChar (n % b) :: ds) hq hlt
        simp only [List.length_cons] at this
        omega

/-- An identifier of 0x10000000 or more is written with at least 8 hex digits. -/
theorem upperHex_length_ge (v : Nat) (h : 0x10000000 ≤ v) : 8 ≤ (upperHex v).length := by
  have := toDigitsCore_length_lower 16 (by decide) 7 (v + 1) v [] (by simpa using h) (by omega)
  simpa [upperHex, Nat.toDigits] using this

/-- An identifier below 0x10000000 is written with at most 7 hex digits. -/
theorem upperHex_length_le (v : Nat) (h : v < 0x10000000) : (upperHex v).length ≤ 7 := by
  have := Nat.toDigitsCore_length 16 (by decide) (v + 1) v 7 (by simpa using h) (by decide)
  simpa [upperHex, Nat.toDigits] using this

/-- The `sprintf` of line 690 stays inside `buff` exactly when headers are off or the
identifier is below 0x10000000. -/
theorem headerInBuff_iff (s : ELM327Emu) (frame : CAN_FRAME) :
    headerInBuff s frame = true ↔ (s.print_header = true → frame.id < 0x10000000) := by
  rcases Nat.lt_or_ge frame.id 0x10000000 with h | h
  · have := upperHex_length_le _ h
    simp only [headerInBuff, sprintfStores, buffSize, sprintf03X, List.length_append,
      List.length_replicate, Bool.or_eq_true, Bool.not_eq_true', decide_eq_true_eq]
    constructor
    · intro _ _; exact h
    · intro _; right; omega
  · have := upperHex_length_ge _ h
    simp only [headerInBuff, sprintfStores, buffSize, sprintf03X, List.length_append,
      List.length_replicate, Bool.or_eq_true, Bool.not_eq_true', decide_eq_true_eq]
    constructor
    · rintro (h1 | h1)
      · intro h2; simp [h1] at h2
      · omega
    · intro h1
      left
      cases hp : s.print_header
      · rfl
      · have := h1 hp; omega

/-- With headers on, an identifier of 0x10000000 or more makes the `sprintf` of line 690 store
more bytes than `buff` has. -/
theorem header_overruns (s : ELM327Emu) (frame : CAN_FRAME) (hp : s.print_header = true)
    (h : 0x10000000 ≤ frame.id) :
    buffSize < sprintfStores (sprintf03X frame.id) ∧ headerInBuff s frame = false := by
  have hl := upperHex_length_ge _ h
  have h1 : buffSize < sprintfStores (sprintf03X frame.id) := by
    simp only [sprintfStores, buffSize, sprintf03X, List.length_append, List.length_replicate]
    omega
  refine ⟨h1, ?_⟩
  simp only [headerInBuff, hp, Bool.not_true, Bool.false_or, decide_eq_false_iff_not]
  omega

theorem sprintf02X_byte (b : Nat) (hb : b < 256) : sprintf02X b = twoHexDigits b := by
  interval_cases b <;> rfl

theorem joinGroups_snoc (sep : List Char) (g : List Char) :
    ∀ gs : List (List Char), joinGroups sep (gs ++ [g])
      = if gs = [] then g else joinGroups sep gs ++ sep ++ g
  | [] => rfl
  | [h] => by simp [joinGroups]
  | h :: h2 :: gs => by
    have ih := joinGroups_snoc sep g (h2 :: gs)
    rw [List.cons_append] at ih
    show joinGroups sep (h :: h2 :: (gs ++ [g])) = _
    rw [joinGroups, ih]
    simp [joinGroups]

/-- The formatting loops write the bytes as two-digit groups with the separator between
neighbours. -/
theorem payloadText_eq (s : ELM327Emu) (frame : CAN_FRAME) (offset : Nat) :
    ∀ count, payloadText s frame count offset
      = joinGroups (separator s)
          ((List.range count).map (fun i => twoHexDigits (frame.byte (i + offset)))) := by
  intro count
  induction count with
  | zero => rfl
  | succ c ih =>
    have hb : frame.byte (c + offset) < 256 := Nat.mod_lt _ (by decide)
    unfold payloadText at ih ⊢
    rw [List.range_succ, List.foldl_append, ih, List.map_append, List.map_singleton,
      joinGroups_snoc]
    simp only [List.foldl_cons, List.foldl_nil, sprintf02X_byte _ hb]
    rcases c with _ | c
    · simp [joinGroups]
    · simp [List.range_succ, separator]

theorem single_frame_not_multi (b : Nat) (hb : b < 256) (h : b / 16 = 0) :
    ¬ (b &&& 0xF0 = 0x10 ∨ b &&& 0xF0 = 0x20 ∨ b &&& 0xF0 = 0x30) := by
  have : b < 16 := by omega
  interval_cases b <;> decide

/-! Validating handlers -/

theorem malformed_starts_with_at (cmd : List Char) (h : MalformedArgument cmd) :
    cmd.take 2 = "at".toList := by
  cases h <;> rfl

/-- A malformed argument reaches the unsupported-command answer of its handler, which
leaves the session as it is. -/
theorem atDispatch_malformed (s : ELM327Emu) (millis : Nat) (raw cmd : List Char)
    (le : List Char) (hlen : cmd.length ≤ 128) (h : MalformedArgument cmd) :
    atDispatch s millis cmd (cmdAt raw cmd) le = ⟨s, "?".toList, []⟩ := by
  cases h with
  | setProtocol arg h0 h6 =>
    rcases arg with _ | ⟨c, rest⟩ <;> simp_all [atDispatch, strncmp0, strcmp0, cmdAt]
  | spaceToggle arg h0 h1 hh hp ht =>
    rcases arg with _ | ⟨c, rest⟩ <;> simp_all [atDispatch, strncmp0, strcmp0, cmdAt]
  | autoFormatToggle arg h0 h1 =>
    rcases arg with _ | ⟨c, rest⟩ <;> simp_all [atDispatch, strncmp0, strcmp0, cmdAt]
  | extendedAddress arg h0 h2 =>
    have hm : arg.length % 256 = arg.length := Nat.mod_eq_of_lt (by simp at hlen; omega)
    simp [atDispatch, strncmp0, strcmp0, hm, h0, h2]
  | flowControlToggle arg h0 h1 =>
    rcases arg with _ | ⟨c, rest⟩ <;> simp_all [atDispatch, strncmp0, strcmp0, cmdAt]
  | flowControlMode arg h0 h1 h2 =>
    rcases arg with _ | ⟨c, rest⟩
    · simp [atDispatch, strncmp0, strcmp0, cmdAt]
    · have hc : ¬ (48 ≤ c.toNat ∧ c.toNat ≤ 50) := by
        intro hr
        have h3 : c.toNat = 48 ∨ c.toNat = 49 ∨ c.toNat = 50 := by omega
        rcases h3 with h3 | h3 | h3
        · exact h0 (by rw [char_eq_of_toNat c _ h3]; rfl)
        · exact h1 (by rw [char_eq_of_toNat c _ h3]; rfl)
        · exact h2 (by rw [char_eq_of_toNat c _ h3]; rfl)
      simp [atDispatch, strncmp0, strcmp0, cmdAt, hc]
  | flowControlHeader arg h3 h8 =>
    have hm : arg.length % 256 = arg.length := Nat.mod_eq_of_lt (by simp at hlen; omega)
    simp [atDispatch, strncmp0, strcmp0, hm, h3, h8]
  | flowControlData arg h =>
    have hm : arg.length % 256 = arg.length := Nat.mod_eq_of_lt (by simp at hlen; omega)
    simp [atDispatch, strncmp0, strcmp0]
    omega
  | receiveAddress arg h0 h3 =>
    have hm : arg.length % 256 = arg.length := Nat.mod_eq_of_lt (by simp at hlen; omega)
    simp [atDispatch, strncmp0, strcmp0, hm, h0, h3]

/-! The claims -/

/-- Claim C1. For every session state and every diagnostic request whose normalized form is
an even number D of hex digits with 2 ≤ D ≤ 16, `processELMCmd` hands the bus exactly one
frame with id = canTransmitAddress, extended = false, rtr = 0, length = 8, whose data bytes
are the extended-addressing byte (if enabled), then D/2 (if automatic formatting is enabled),
then the bytes decoded from successive digit pairs as far as the 8 bytes reach, then 0xAA.
With the configuration the constructor gives, `0100` yields id 0x7E0 and data
02 01 00 AA AA AA AA AA. -/
theorem request_frame_payload (s : ELM327Emu) (millis : Nat) (fresh : CAN_FRAME)
    (raw : List Char) (hall : ∀ c ∈ normalize raw, c ∈ hexDigits)
    (hev : (normalize raw).length % 2 = 0) (hlo : 2 ≤ (normalize raw).length)
    (hhi : (normalize raw).length ≤ 16) :
    (processELMCmd s millis fresh raw).sent
        = [{ id := s.canTransmitAddress, extended := false, rtr := 0, length := 8,
             data := expectedPayload s (normalize raw) }]
      ∧ ∀ (mem : ELM327Emu) (t : Nat) (fr : CAN_FRAME),
          (processELMCmd (ELM327Emu.ELM327Emu mem) t fr "0100".toList).sent
            = [{ id := 0x7E0, extended := false, rtr := 0, length := 8,
                 data := [0x02, 0x01, 0x00, 0xAA, 0xAA, 0xAA, 0xAA, 0xAA] }] := by
  have key : ∀ (s : ELM327Emu) (millis : Nat) (fresh : CAN_FRAME) (raw : List Char),
      (∀ c ∈ normalize raw, c ∈ hexDigits) → (normalize raw).length % 2 = 0 →
      2 ≤ (normalize raw).length → (normalize raw).length ≤ 16 →
      (processELMCmd s millis fresh raw).sent
        = [{ id := s.canTransmitAddress, extended := false, rtr := 0, length := 8,
             data := expectedPayload s (normalize raw) }] := by
    intro s millis fresh raw hall hev hlo hhi
    obtain ⟨hT, hE, hD, hA⟩ := clearMonitor_fields s
    rw [processELMCmd_hex s millis fresh raw hall (by omega)]
    simp only []
    rw [pidRequest_sent (clearMonitor s) millis fresh raw (lineEnding s) (normalize raw)
      hall hev hlo hhi]
    simp only [expectedPayload, hT, hE, hD, hA]
  refine ⟨key s millis fresh raw hall hev hlo hhi, ?_⟩
  intro mem t fr
  rw [key (ELM327Emu.ELM327Emu mem) t fr "0100".toList (by decide) (by decide) (by decide)
    (by decide)]
  rfl

/-- Witness for C1: the request `01 0C` sent in the constructed state. -/
theorem request_frame_payload_witness :
    (processELMCmd constructed 0 zeroFrame "01 0C\r".toList).sent
      = [{ id := 0x7E0, extended := false, rtr := 0, length := 8,
           data := [0x02, 0x01, 0x0C, 0xAA, 0xAA, 0xAA, 0xAA, 0xAA] }] :=
  (request_frame_payload constructed 0 zeroFrame "01 0C\r".toList (by decide) (by decide)
    (by decide) (by decide)).1.trans (by decide)

/-- Counterexample to C2 as stated: in the constructed state with a Pending Request active,
`processCANReply` on id 0x7E8, data 06 41 00 BE 3F B8 11 AA does not emit
`7E8 06 41 00 BE 3F B8 11` + CR. -/
theorem reply_example_with_length_byte_refuted :
    (processCANReply { constructed with waitingForRequest := true } 0 replyFrame).emitted
      ≠ some "7E8 06 41 00 BE 3F B8 11\r".toList := by
  decide

/-- Claim C2, amended. With headers on, spaces on, data-length printing off, automatic
formatting on, line feed off, no receive-address filter and a Pending Request active for
transmit address 0x7E0, `processCANReply` on a frame with id 0x7E8 and data
06 41 00 BE 3F B8 11 AA emits exactly `7E8 41 00 BE 3F B8 11` + CR: the six bytes that follow
the length byte, without the length byte itself. -/
theorem reply_example_text (s : ELM327Emu) (millis : Nat) (frame : CAN_FRAME)
    (hh : s.print_header = true) (hs : s.print_space = true) (hd : s.print_dlc = false)
    (ha : s.canAutomaticFormatting_enable = true) (hl : s.print_linefeed = false)
    (hw : s.waitingForRequest = true) (hr : s.canReceiveAddress_enable = false)
    (ht : s.canTransmitAddress = 0x7E0) (hid : frame.id = 0x7E8)
    (hdata : frame.data = [0x06, 0x41, 0x00, 0xBE, 0x3F, 0xB8, 0x11, 0xAA]) :
    (processCANReply s millis frame).emitted = some "7E8 41 00 BE 3F B8 11\r".toList := by
  simp [processCANReply, headerText, payloadText, addressMatches, lineEnding, CAN_FRAME.byte,
    hh, hs, hd, ha, hl, hw, hr, ht, hid, hdata]
  decide

/-- Witness for C2 (amended): the constructed state with a Pending Request active. -/
theorem reply_example_text_witness :
    (processCANReply { constructed with waitingForRequest := true } 7 replyFrame).emitted
      = some "7E8 41 00 BE 3F B8 11\r".toList :=
  reply_example_text { constructed with waitingForRequest := true } 7 replyFrame rfl rfl rfl
    rfl rfl rfl rfl rfl rfl rfl

/-- Claim C3, at the failing command. For every session state with echo disabled, the reply
to the extended-address command (`atcea` alone, or `atcea` with two characters) is the line
ending and the prompt only, so it differs from `OK` + line ending + prompt; the
configuration field is set all the same. -/
theorem extended_address_reply_without_ok (s : ELM327Emu) (millis : Nat) (fresh : CAN_FRAME)
    (raw : List Char) (a b : Char) (he : s.print_echo = false)
    (h : normalize raw = "atcea".toList ∨ normalize raw = "atcea".toList ++ [a, b]) :
    (processELMCmd s millis fresh raw).reply = lineEnding s ++ ">".toList
      ∧ (processELMCmd s millis fresh raw).reply
          ≠ "OK".toList ++ lineEnding s ++ ">".toList
      ∧ (processELMCmd s millis fresh raw).state.canExtendedAddressing_enable
          = decide (normalize raw ≠ "atcea".toList) := by
  have h2 : (normalize raw).take 2 = "at".toList := by
    rcases h with h | h <;> rw [h] <;> rfl
  have hr : (processELMCmd s millis fresh raw).reply = lineEnding s ++ ">".toList := by
    rw [processELMCmd_at s millis fresh raw h2]
    rcases h with h | h <;> simp [h, he, echoText, atDispatch, strncmp0, strcmp0]
  refine ⟨hr, ?_, ?_⟩
  · rw [hr]
    intro hc
    have := congrArg List.length hc
    simp at this
  · rw [processELMCmd_at s millis fresh raw h2]
    rcases h with h | h <;> simp [h, atDispatch, strncmp0, strcmp0]

/-- Witness for C3: `AT CEA 12` in the constructed state. -/
theorem extended_address_reply_without_ok_witness :
    (processELMCmd constructed 0 zeroFrame "AT CEA 12".toList).reply = "\r>".toList
      ∧ (processELMCmd constructed 0 zeroFrame "AT CEA 12".toList).reply ≠ "OK\r>".toList :=
  ⟨(extended_address_reply_without_ok constructed 0 zeroFrame "AT CEA 12".toList '1' '2' rfl
      (Or.inr (by decide))).1,
    (extended_address_reply_without_ok constructed 0 zeroFrame "AT CEA 12".toList '1' '2' rfl
      (Or.inr (by decide))).2.1⟩

/-- Claim C4. For every prior session state, after `processELMCmd` handles `atz` or `atws`
every Session Configuration field has its default, which is the value the constructor gives
it. -/
theorem reset_restores_defaults (s : ELM327Emu) (millis : Nat) (fresh : CAN_FRAME)
    (raw : List Char)
    (h : normalize raw = "atz".toList ∨ normalize raw = "atws".toList) :
    sessionConfiguration (processELMCmd s millis fresh raw).state = defaultConfiguration
      ∧ ∀ mem : ELM327Emu,
          sessionConfiguration (ELM327Emu.ELM327Emu mem) = defaultConfiguration := by
  rw [processELMCmd_at s millis fresh raw (reset_starts_with_at _ h),
    atDispatch_reset _ _ _ _ _ h]
  exact ⟨rfl, fun _ => rfl⟩

/-- Witness for C4: `AT WS` after the transmit address, the timeout and the echo were
changed. -/
theorem reset_restores_defaults_witness :
    sessionConfiguration
        (processELMCmd
          { constructed with canTransmitAddress := 0x123, timeout := 40, print_echo := true }
          9 zeroFrame "AT WS".toList).state
      = defaultConfiguration :=
  (reset_restores_defaults
    { constructed with canTransmitAddress := 0x123, timeout := 40, print_echo := true }
    9 zeroFrame "AT WS".toList (Or.inr (by decide))).1

/-- Claim C5, what the code does. For every prior session state, `atz` / `atws` clears the
Pending Request (inactive, frame count 0) but leaves the Pending Search flag as it was:
an armed search stays armed. -/
theorem reset_keeps_pending_search (s : ELM327Emu) (millis : Nat) (fresh : CAN_FRAME)
    (raw : List Char)
    (h : normalize raw = "atz".toList ∨ normalize raw = "atws".toList) :
    (processELMCmd s millis fresh raw).state.waitingForRequest = false
      ∧ (processELMCmd s millis fresh raw).state.waitingForRequest_CANcount = 0
      ∧ (processELMCmd s millis fresh raw).state.waitingForSearching
          = s.waitingForSearching := by
  rw [processELMCmd_at s millis fresh raw (reset_starts_with_at _ h),
    atDispatch_reset _ _ _ _ _ h]
  refine ⟨rfl, rfl, ?_⟩
  simp only [resetAll, clearMonitor]
  split <;> rfl

/-- Witness for C5: `ATSP0` arms the search in the constructed state, and `ATZ` right after
leaves it armed. -/
theorem reset_keeps_pending_search_witness :
    (processELMCmd constructed 0 zeroFrame "ATSP0".toList).state.waitingForSearching = true
      ∧ (processELMCmd (processELMCmd constructed 0 zeroFrame "ATSP0".toList).state 5
          zeroFrame "ATZ".toList).state.waitingForSearching = true :=
  ⟨by decide,
    (reset_keeps_pending_search (processELMCmd constructed 0 zeroFrame "ATSP0".toList).state 5
      zeroFrame "ATZ".toList (Or.inl (by decide))).2.2.trans (by decide)⟩

/-- Counterexample to C6 as stated: the echo toggle with the digit 2 is answered with OK,
not with the unsupported-command token. -/
theorem echo_toggle_bad_digit_answered_ok :
    (processELMCmd constructed 0 zeroFrame "ATE2".toList).reply = "OK\r>".toList
      ∧ (processELMCmd constructed 0 zeroFrame "ATE2".toList).reply ≠ "?\r>".toList := by
  decide

/-- Claim C6, amended. For every session state and every command of a validating handler
(set-protocol, space toggle, auto-format toggle, extended-address, flow-control toggle,
flow-control-mode, flow-control-header, flow-control-data, receive-address) whose argument
has the wrong shape, `processELMCmd` replies (after the echo, if any) `?`, line ending and
prompt, leaves every Session Configuration field unchanged and sends no frame. -/
theorem malformed_argument_rejected (s : ELM327Emu) (millis : Nat) (fresh : CAN_FRAME)
    (raw : List Char) (h : MalformedArgument (normalize raw)) :
    (processELMCmd s millis fresh raw).reply
        = echoText s raw ++ "?".toList ++ lineEnding s ++ ">".toList
      ∧ sessionConfiguration (processELMCmd s millis fresh raw).state
          = sessionConfiguration s
      ∧ (processELMCmd s millis fresh raw).sent = [] := by
  rw [processELMCmd_at s millis fresh raw (malformed_starts_with_at _ h),
    atDispatch_malformed _ millis raw _ _ (normalize_length_le raw) h]
  exact ⟨rfl, clearMonitor_configuration s, rfl⟩

/-- Witness for C6 (amended): the auto-format toggle with the digit 5. -/
theorem malformed_argument_rejected_witness :
    (processELMCmd constructed 0 zeroFrame "AT CAF5".toList).reply = "?\r>".toList
      ∧ sessionConfiguration (processELMCmd constructed 0 zeroFrame "AT CAF5".toList).state
          = sessionConfiguration constructed :=
  ⟨(malformed_argument_rejected constructed 0 zeroFrame "AT CAF5".toList
      (MalformedArgument.autoFormatToggle ['5'] (by decide) (by decide))).1.trans (by decide),
    (malformed_argument_rejected constructed 0 zeroFrame "AT CAF5".toList
      (MalformedArgument.autoFormatToggle ['5'] (by decide) (by decide))).2.1⟩

/-- Claim C7, at the failing input. From the constructed state: the request `0100` at clock
0, its reply frame at clock 10, the request `0100` again at clock 50, and no frame
afterwards. The second request arms the Pending Request at 50 with timeout 200 but keeps the
frame count 1 of the first one, so the poll at clock 300 emits CR and the prompt without
`NO DATA`. -/
theorem stale_count_suppresses_no_data :
    (processCANReply (processELMCmd constructed 0 zeroFrame "0100".toList).state 10
        replyFrame).state.waitingForRequest_CANcount = 1
      ∧ (processELMCmd
          (processCANReply (processELMCmd constructed 0 zeroFrame "0100".toList).state 10
            replyFrame).state
          50 zeroFrame "0100".toList).state.waitingForRequest = true
      ∧ (processELMCmd
          (processCANReply (processELMCmd constructed 0 zeroFrame "0100".toList).state 10
            replyFrame).state
          50 zeroFrame "0100".toList).state.waitingForRequest_millis = 50
      ∧ (processELMCmd
          (processCANReply (processELMCmd constructed 0 zeroFrame "0100".toList).state 10
            replyFrame).state
          50 zeroFrame "0100".toList).state.timeout = 200
      ∧ (processCANWaiting
          (processELMCmd
            (processCANReply (processELMCmd constructed 0 zeroFrame "0100".toList).state 10
              replyFrame).state
            50 zeroFrame "0100".toList).state
          300).emitted = some "\r>".toList := by
  decide

/-- Claim C8. For every session state with a Pending Request active and every inbound
single-frame (top nibble of data byte 0 is 0) whose identifier matches the active addressing
rule: where the `sprintf` of the identifier stays inside `char buff[8]` (headers off, or
identifier below 0x10000000), the text emitted by `processCANReply` is the header part, the
payload part and the line ending, where the payload part consists of exactly data[0]
two-hex-digit groups (the bytes after data[0]) when automatic formatting is enabled, and of
the 8 groups of the raw bytes 0..7 in order when it is disabled. With headers on and an
identifier of 0x10000000 or more that `sprintf` stores more than the 8 bytes of `buff`, and
the source emits no defined text. -/
theorem single_frame_groups_unless_header_overruns (s : ELM327Emu) (millis : Nat)
    (frame : CAN_FRAME) (hw : s.waitingForRequest = true)
    (hm : addressMatches s frame = true) (hsf : frame.byte 0 / 16 = 0) :
    (headerInBuff s frame = true →
        (s.canAutomaticFormatting_enable = true →
          ((List.range (frame.byte 0)).map
              (fun i => twoHexDigits (frame.byte (i + 1)))).length = frame.byte 0
            ∧ (processCANReply s millis frame).emitted
              = some (headerText s frame
                  ++ joinGroups (separator s)
                      ((List.range (frame.byte 0)).map
                        (fun i => twoHexDigits (frame.byte (i + 1))))
                  ++ lineEnding s))
        ∧ (s.canAutomaticFormatting_enable = false →
          (processCANReply s millis frame).emitted
            = some (headerText s frame
                ++ joinGroups (separator s)
                    [twoHexDigits (frame.byte 0), twoHexDigits (frame.byte 1),
                     twoHexDigits (frame.byte 2), twoHexDigits (frame.byte 3),
                     twoHexDigits (frame.byte 4), twoHexDigits (frame.byte 5),
                     twoHexDigits (frame.byte 6), twoHexDigits (frame.byte 7)]
                ++ lineEnding s)))
      ∧ (s.print_header = true → 0x10000000 ≤ frame.id →
          buffSize < sprintfStores (sprintf03X frame.id) ∧ headerInBuff s frame = false) := by
  have hb : frame.byte 0 < 256 := Nat.mod_lt _ (by decide)
  have hnm := single_frame_not_multi _ hb hsf
  refine ⟨fun _ => ⟨?_, ?_⟩, header_overruns s frame⟩
  · intro ha
    refine ⟨by simp, ?_⟩
    simp [processCANReply, hw, hm, hnm, ha, payloadText_eq]
  · intro ha
    simp [processCANReply, hw, hm, hnm, ha, payloadText_eq, List.range_succ]

/-- Witness for C8: a three-byte single frame from 0x7E8 with automatic formatting off is
emitted as 8 groups; after the lines `ATSH18DAF110` and `0100` the matching single frame
from 0x18DAF118 makes the `sprintf` of the identifier leave `buff`. -/
theorem single_frame_groups_unless_header_overruns_witness :
    (processCANReply
        { constructed with waitingForRequest := true, canAutomaticFormatting_enable := false }
        3 { replyFrame with data := [0x03, 0x41, 0x0C, 0x1A, 0, 0, 0, 0] }).emitted
        = some "7E8 03 41 0C 1A 00 00 00 00\r".toList
      ∧ sprintfStores (sprintf03X extendedReplyFrame.id) = 9
      ∧ headerInBuff (sessionAfter ["ATSH18DAF110", "0100"]) extendedReplyFrame = false :=
  ⟨(((single_frame_groups_unless_header_overruns
      { constructed with waitingForRequest := true, canAutomaticFormatting_enable := false }
      3 { replyFrame with data := [0x03, 0x41, 0x0C, 0x1A, 0, 0, 0, 0] }
      rfl (by decide) (by decide)).1 (by decide)).2 rfl).trans (by decide),
    by decide,
    ((single_frame_groups_unless_header_overruns
      (sessionAfter ["ATSH18DAF110", "0100"]) 10 extendedReplyFrame
      (by decide) (by decide) (by decide)).2 (by decide) (by decide)).2⟩

/-- Counterexample to C9 as stated: for the one-digit request `1` (D = 1) in the constructed
state the frame that is sent has the bytes 0..2 of the freshly declared frame, here 0, so
data byte 1, which follows no decoded pair, is not 0xAA. -/
theorem one_digit_request_not_padded :
    (processELMCmd constructed 0 zeroFrame "1".toList).sent
        = [{ id := 0x7E0, extended := false, rtr := 0, length := 8,
             data := [0, 0, 0, 0xAA, 0xAA, 0xAA, 0xAA, 0xAA] }]
      ∧ ¬ ∀ f ∈ (processELMCmd constructed 0 zeroFrame "1".toList).sent,
          f.byte 0 = 1 / 2 ∧ ∀ k, 1 / 2 < k → k < 8 → f.byte k = 0xAA := by
  refine ⟨by decide, ?_⟩
  intro h
  have h1 := (h _ (List.mem_singleton.mpr rfl)).2 1 (by decide) (by decide)
  revert h1
  decide

/-- Claim C9, amended. For every diagnostic request of D hex digits with 2 ≤ D ≤ 16 (a
trailing odd digit being dropped), with automatic formatting enabled and extended addressing
disabled, `processELMCmd` sends one frame of 8 data bytes whose byte 0 equals D/2 and whose
bytes after the decoded pairs (positions D/2 + 1 .. 7) equal 0xAA. -/
theorem length_byte_and_padding (s : ELM327Emu) (millis : Nat) (fresh : CAN_FRAME)
    (raw : List Char) (hall : ∀ c ∈ normalize raw, c ∈ hexDigits)
    (hlo : 2 ≤ (normalize raw).length) (hhi : (normalize raw).length ≤ 16)
    (hA : s.canAutomaticFormatting_enable = true)
    (hE : s.canExtendedAddressing_enable = false) :
    ∃ f, (processELMCmd s millis fresh raw).sent = [f]
      ∧ f.data.length = 8
      ∧ f.byte 0 = (normalize raw).length / 2
      ∧ ∀ k, (normalize raw).length / 2 < k → k < 8 → f.byte k = 0xAA := by
  rw [processELMCmd_hex s millis fresh raw hall (by omega)]
  obtain ⟨-, hE', -, hA'⟩ := clearMonitor_fields s
  generalize normalize raw = n at *
  have hv : ((0 < (if n.length % 2 = 1 then n.length - 1 else n.length)
      ∧ (if n.length % 2 = 1 then n.length - 1 else n.length) < 17)
      ∧ (if n.length % 2 = 1 then n.length - 1 else n.length) % 2 = 0) := by
    split <;> omega
  refine ⟨_, rfl, by simp [pidRequest], ?_, ?_⟩
  · simp only [CAN_FRAME.byte, pidRequest, map_range8_getD _ 0 (by omega), hE', hA', hE, hA]
    simp only [hv, and_self, decide_True, if_true, Bool.false_eq_true, if_false,
      fillPayload_apply]
    simp
    split <;> omega
  · intro k hk hk8
    simp only [CAN_FRAME.byte, pidRequest, map_range8_getD _ k hk8, hE', hA', hE, hA]
    simp only [hv, and_self, decide_True, if_true, Bool.false_eq_true, if_false,
      fillPayload_apply]
    have h1 : (0 + 1 ≤ k ∧ k < 0 + 1 + 8 ∧ k < 8) := by omega
    have h2 : ¬ (2 * (k - 1) < (if n.length % 2 = 1 then n.length - 1 else n.length)) := by
      split <;> omega
    simp [h1, h2]

/-- Witness for C9 (amended): the three-digit request `010`, whose last digit is dropped. -/
theorem length_byte_and_padding_witness :
    ∃ f, (processELMCmd constructed 0 zeroFrame "010".toList).sent = [f]
      ∧ f.data.length = 8
      ∧ f.byte 0 = (normalize "010".toList).length / 2
      ∧ ∀ k, (normalize "010".toList).length / 2 < k → k < 8 → f.byte k = 0xAA :=
  length_byte_and_padding constructed 0 zeroFrame "010".toList (by decide) (by decide)
    (by decide) rfl rfl

/-- Claim C10. For every session state and every input whose normalized form begins with
`at`, the reply of `processELMCmd` ends with the line ending selected by the line-feed
setting on entry, followed by the prompt character. -/
theorem at_reply_ends_with_prompt (s : ELM327Emu) (millis : Nat) (fresh : CAN_FRAME)
    (raw : List Char) (h : (normalize raw).take 2 = "at".toList) :
    (lineEnding s ++ ">".toList) <:+ (processELMCmd s millis fresh raw).reply
      ∧ lineEnding s = (if s.print_linefeed then "\r\n".toList else "\r".toList) := by
  rw [processELMCmd_at s millis fresh raw h]
  exact ⟨⟨echoText s raw
    ++ (atDispatch (clearMonitor s) millis (normalize raw) (cmdAt raw (normalize raw))
        (lineEnding s)).reply, by simp only [List.append_assoc]⟩, rfl⟩

/-- Witness for C10: switching line feeds on is still answered with a bare CR, and the
next command with CR LF. -/
theorem at_reply_ends_with_prompt_witness :
    "\r>".toList <:+ (processELMCmd constructed 0 zeroFrame "ATL1".toList).reply
      ∧ (processELMCmd constructed 0 zeroFrame "ATL1".toList).reply = "OK\r>".toList
      ∧ (processELMCmd (processELMCmd constructed 0 zeroFrame "ATL1".toList).state 1
          zeroFrame "ATI".toList).reply = "ELM327 v1.5\r\n>".toList :=
  ⟨(at_reply_ends_with_prompt constructed 0 zeroFrame "ATL1".toList (by decide)).1,
    by decide, by decide⟩

/-! Branch selection and the request branch -/

theorem mem_hexDigits_of_startsWithHexDigit (c : Char) (h : startsWithHexDigit c = true) :
    c ∈ hexDigits := by
  simp only [startsWithHexDigit, Bool.or_eq_true, decide_eq_true_eq, beq_iff_eq] at h
  rcases h with (((((h | h) | h) | h) | h) | h) | h
  · obtain ⟨h1, h2⟩ := h
    generalize hn : c.toNat = n at h1 h2
    have hc := char_eq_of_toNat c n hn
    subst hc
    interval_cases n <;> decide
  all_goals subst h; decide

theorem not_startsWithHexDigit (c : Char) (h : c ∉ hexDigits) : startsWithHexDigit c = false := by
  cases hs : startsWithHexDigit c
  · rfl
  · exact absurd (mem_hexDigits_of_startsWithHexDigit c hs) h

theorem processELMCmd_request (s : ELM327Emu) (millis : Nat) (fresh : CAN_FRAME)
    (raw : List Char) (c : Char) (rest : List Char) (hn : normalize raw = c :: rest)
    (hc : c ∈ hexDigits) (hat : (normalize raw).take 2 ≠ "at".toList) :
    processELMCmd s millis fresh raw =
      ⟨(pidRequest (clearMonitor s) millis fresh (normalize raw) (cmdAt raw (normalize raw))
          (lineEnding s)).state,
        echoText s raw
          ++ (pidRequest (clearMonitor s) millis fresh (normalize raw)
                (cmdAt raw (normalize raw)) (lineEnding s)).reply,
        (pidRequest (clearMonitor s) millis fresh (normalize raw) (cmdAt raw (normalize raw))
          (lineEnding s)).sent⟩ := by
  have h1 : strncmp0 (normalize raw) "at".toList 2 = false := by
    simpa [strncmp0] using hat
  have h2 : startsWithHexDigit (cmdAt raw (normalize raw) 0) = true := by
    rw [hn]
    simpa [cmdAt] using startsWithHexDigit_of_mem c hc
  simp only [processELMCmd, h1, h2, echoText]
  simp

theorem processELMCmd_unknown (s : ELM327Emu) (millis : Nat) (fresh : CAN_FRAME)
    (raw : List Char) (hat : (normalize raw).take 2 ≠ "at".toList)
    (hx : ∀ c, (normalize raw).head? = some c → c ∉ hexDigits) :
    processELMCmd s millis fresh raw =
      ⟨clearMonitor s, echoText s raw ++ "?".toList ++ lineEnding s ++ ">".toList, []⟩ := by
  have h1 : strncmp0 (normalize raw) "at".toList 2 = false := by
    simpa [strncmp0] using hat
  have h2 : startsWithHexDigit (cmdAt raw (normalize raw) 0) = false := by
    cases hn : normalize raw with
    | nil => simp [cmdAt]; decide
    | cons c rest =>
      have := hx c (by rw [hn]; rfl)
      simpa [cmdAt] using not_startsWithHexDigit c this
  simp only [processELMCmd, h1, h2, echoText]
  simp

theorem cons_of_head (n : List Char) (c : Char) (h : n.head? = some c) :
    ∃ rest, n = c :: rest := by
  cases n with
  | nil => simp at h
  | cons d rest => simp at h; exact ⟨rest, by rw [h]⟩

theorem pidRequest_reply (s : ELM327Emu) (millis : Nat) (fresh : CAN_FRAME) (n : List Char)
    (rd : Nat → Char) (le : List Char) :
    (pidRequest s millis fresh n rd le).reply
      = (if 0 < trimmedCount n.length ∧ trimmedCount n.length ≤ 16 then [] else "?".toList)
          ++ le := by
  have hc : (if n.length % 2 = 1 then n.length - 1 else n.length) = trimmedCount n.length := by
    unfold trimmedCount
    split <;> omega
  have hv : (((0 < trimmedCount n.length ∧ trimmedCount n.length < 17)
      ∧ trimmedCount n.length % 2 = 0) ↔ (0 < trimmedCount n.length ∧ trimmedCount n.length ≤ 16)) := by
    unfold trimmedCount
    omega
  simp only [pidRequest, hc, hv]
  by_cases h : 0 < trimmedCount n.length ∧ trimmedCount n.length ≤ 16 <;> simp [h]

theorem pidRequest_state (s : ELM327Emu) (millis : Nat) (fresh : CAN_FRAME) (n : List Char)
    (rd : Nat → Char) (le : List Char) :
    (pidRequest s millis fresh n rd le).state
      = { s with waitingForRequest_millis := millis, waitingForRequest := true } := rfl

theorem pidRequest_rejected_sent (s : ELM327Emu) (millis : Nat) (fresh : CAN_FRAME)
    (n : List Char) (rd : Nat → Char) (le : List Char)
    (h : trimmedCount n.length = 0 ∨ 16 < trimmedCount n.length) :
    ∃ f, (pidRequest s millis fresh n rd le).sent = [f] ∧ f.id = s.canTransmitAddress
      ∧ f.extended = false ∧ f.rtr = 0 ∧ f.length = 8 ∧ f.data.length = 8
      ∧ (∀ k, k < 3 → f.byte k = fresh.byte k)
      ∧ ∀ k, 3 ≤ k → k < 8 → f.byte k = 0xAA := by
  have hc : (if n.length % 2 = 1 then n.length - 1 else n.length) = trimmedCount n.length := by
    unfold trimmedCount
    split <;> omega
  have hv : ¬ ((0 < trimmedCount n.length ∧ trimmedCount n.length < 17)
      ∧ trimmedCount n.length % 2 = 0) := by omega
  refine ⟨_, rfl, rfl, rfl, rfl, rfl, by simp [pidRequest], ?_, ?_⟩
  · intro k hk
    simp only [pidRequest, hc, hv, CAN_FRAME.byte, map_range8_getD _ k (by omega), decide_False,
      Bool.false_eq_true, if_false]
    interval_cases k <;> simp [Function.update, CAN_FRAME.byte]
  · intro k hk3 hk8
    simp only [pidRequest, hc, hv, CAN_FRAME.byte, map_range8_getD _ k hk8, decide_False,
      Bool.false_eq_true, if_false]
    interval_cases k <;> simp [Function.update]

/-! The search monitor -/

theorem elapsed_eq (t t0 : Nat) (h0 : t0 ≤ t) (h : t < 2 ^ 32) :
    (t + 2 ^ 32 - t0) % 2 ^ 32 = t - t0 := by
  have e : (2 : Nat) ^ 32 = 4294967296 := by norm_num
  rw [e] at h ⊢
  omega

theorem searching_not_qualified (s : ELM327Emu) (t : Nat) (frame : CAN_FRAME)
    (hw : s.waitingForSearching = true)
    (ht0 : s.waitingForSearching_millis ≤ t) (ht : t < 2 ^ 32)
    (hd : t - s.waitingForSearching_millis ≤ 1000) (hq : ¬ qualifiesForSearch frame) :
    processCANSearching s t frame = ⟨s, none, []⟩ := by
  have hd2 : ¬ (t + 2 ^ 32 - s.waitingForSearching_millis) % 2 ^ 32 > 1000 := by
    rw [elapsed_eq t _ ht0 ht]; omega
  unfold qualifiesForSearch at hq
  simp only [processCANSearching, hw, if_true, hd2, if_false]
  by_cases h1 : 0x7E8 ≤ frame.id ∧ frame.id ≤ 0x7EF
  · have h2 : ¬ (frame.byte 1 = 0x41 ∧ frame.byte 2 = 0x00) := fun h => hq ⟨h1, h⟩
    simp only [h1, h2, and_self, if_true, if_false]
  · simp only [h1, if_false]

theorem searching_timeout (s : ELM327Emu) (t : Nat) (frame : CAN_FRAME)
    (hw : s.waitingForSearching = true)
    (ht0 : s.waitingForSearching_millis ≤ t) (ht : t < 2 ^ 32)
    (hd : 1000 < t - s.waitingForSearching_millis) :
    processCANSearching s t frame
      = ⟨{ s with waitingForSearching := false },
          some ("UNABLE TO CONNECT".toList ++ lineEnding s ++ ">".toList), []⟩ := by
  have hd2 : (t + 2 ^ 32 - s.waitingForSearching_millis) % 2 ^ 32 > 1000 := by
    rw [elapsed_eq t _ ht0 ht]; omega
  simp only [processCANSearching, hw, if_true, hd2]

theorem searchPolls_idle (s : ELM327Emu) (hw : s.waitingForSearching = true) :
    ∀ polls : List (Nat × CAN_FRAME),
      (∀ p ∈ polls, ¬ qualifiesForSearch p.2 ∧ s.waitingForSearching_millis ≤ p.1
        ∧ p.1 < 2 ^ 32 ∧ p.1 - s.waitingForSearching_millis ≤ 1000) →
      searchPolls s polls = (s, polls.map (fun _ => none))
  | [], _ => rfl
  | p :: rest, h => by
    obtain ⟨hq, h0, h1, h2⟩ := h p (List.mem_cons_self _ _)
    have ih := searchPolls_idle s hw rest (fun q hq => h q (List.mem_cons_of_mem _ hq))
    simp only [searchPolls, searching_not_qualified s p.1 p.2 hw h0 h1 h2 hq, ih, List.map_cons]

theorem setProtocol_search (mem : ELM327Emu) (t0 : Nat) (fresh : CAN_FRAME) :
    processELMCmd (ELM327Emu.ELM327Emu mem) t0 fresh "ATSP0".toList
      = ⟨{ ELM327Emu.ELM327Emu mem with
            waitingForSearching_millis := t0, waitingForSearching := true },
          "SEARCHING...\r>".toList, [searchProbe]⟩ := by
  rw [processELMCmd_at _ _ _ _ (by decide)]
  have hn : normalize "ATSP0".toList = "atsp0".toList := by decide
  rw [hn]
  simp [atDispatch, strncmp0, strcmp0, cmdAt, clearMonitor, ELM327Emu.ELM327Emu, echoText,
    lineEnding]

/-! Reset, timeout and normalization -/

theorem reset_reply (s : ELM327Emu) (millis : Nat) (fresh : CAN_FRAME) (raw : List Char)
    (h : normalize raw = "atz".toList ∨ normalize raw = "atws".toList) :
    (processELMCmd s millis fresh raw).reply
      = echoText s raw ++ "ELM327 v1.4 (ESP32RET)".toList ++ lineEnding s ++ lineEnding s
          ++ ">".toList := by
  rw [processELMCmd_at s millis fresh raw (reset_starts_with_at _ h),
    atDispatch_reset _ _ _ _ _ h]
  simp only [List.append_assoc]

theorem parseHexString_two (str : Nat → Char) :
    Utility.parseHexString str 2
      = 16 * Utility.parseHexCharacter (str 0) + Utility.parseHexCharacter (str 1) := by
  have h0 : Utility.parseHexCharacter (str 0) ≤ 15 := by
    unfold Utility.parseHexCharacter; split_ifs <;> omega
  have h1 : Utility.parseHexCharacter (str 1) ≤ 15 := by
    unfold Utility.parseHexCharacter; split_ifs <;> omega
  simp only [Utility.parseHexString, List.range_succ, List.range_zero, List.nil_append,
    List.cons_append, List.foldl_cons, List.foldl_nil]
  norm_num
  omega

theorem cstr_of_line (line junk : List Char) (hlen : line.length ≤ 127)
    (hnul : ∀ c ∈ line, c ≠ '\x00') :
    ((line ++ '\x00' :: junk).take 128).takeWhile (fun c => c != '\x00') = line := by
  have h1 : (line ++ '\x00' :: junk).take 128
      = line ++ '\x00' :: junk.take (127 - line.length) := by
    rw [List.take_append_eq_append_take, List.take_of_length_le (by omega)]
    have : 128 - line.length = (127 - line.length) + 1 := by omega
    rw [this, List.take_succ_cons]
  rw [h1, List.takeWhile_append_of_pos (by simpa using hnul)]
  simp

theorem upperLetters_of_range (c : Char) (h : 65 ≤ c.toNat ∧ c.toNat ≤ 90) :
    c ∈ upperLetters := by
  obtain ⟨h1, h2⟩ := h
  generalize hn : c.toNat = n at h1 h2
  have hc := char_eq_of_toNat c n hn
  subst hc
  interval_cases n <;> decide

theorem range_of_upperLetters : ∀ c ∈ upperLetters, 65 ≤ c.toNat ∧ c.toNat ≤ 90 := by
  decide

theorem tolower_eq_lowercaseForm (c : Char) : tolower c = lowercaseForm c := by
  by_cases h : c ∈ upperLetters
  · revert c
    decide
  · have hr : ¬ (65 ≤ c.toNat ∧ c.toNat ≤ 90) := fun hr => h (upperLetters_of_range c hr)
    simp [tolower, lowercaseForm, h, hr]

theorem lowercaseForm_idem (c : Char) : lowercaseForm (lowercaseForm c) = lowercaseForm c := by
  by_cases h : c ∈ upperLetters
  · revert c
    decide
  · simp [lowercaseForm, h]

theorem lowercaseForm_eq_special (c x : Char) (hx : x ∈ ['\x00', '\r', '\n', ' '])
    (h : lowercaseForm c = x) : c = x := by
  by_cases hc : c ∈ upperLetters
  · have key : ∀ c ∈ upperLetters, ∀ x ∈ ['\x00', '\r', '\n', ' '],
        lowercaseForm c = x → c = x := by decide
    exact key c hc x hx h
  · simpa [lowercaseForm, hc] using h

theorem normalize_of_line (line junk : List Char) (hlen : line.length ≤ 127)
    (hnul : ∀ c ∈ line, c ≠ '\x00') :
    normalize (line ++ '\x00' :: junk) = specNormalForm line := by
  unfold normalize specNormalForm
  rw [cstr_of_line line junk hlen hnul]
  have hf : (fun c : Char => !((c == '\r' || c == '\n') || c == ' '))
      = (fun c : Char => decide (c ∉ ['\r', '\n', ' '])) := by
    funext c
    by_cases h1 : c = '\r' <;> by_cases h2 : c = '\n' <;> by_cases h3 : c = ' ' <;>
      simp [h1, h2, h3]
  have hm : tolower = lowercaseForm := funext tolower_eq_lowercaseForm
  rw [hf, hm]

theorem specNormalForm_idem (line : List Char) :
    specNormalForm (specNormalForm line) = specNormalForm line := by
  have hkeep : ∀ c ∈ specNormalForm line, c ∉ ['\r', '\n', ' '] := by
    intro c hc hx
    simp only [specNormalForm, List.mem_map, List.mem_filter] at hc
    obtain ⟨d, ⟨-, hd⟩, rfl⟩ := hc
    have := lowercaseForm_eq_special d _ (List.mem_cons_of_mem _ hx) rfl
    rw [this] at hd
    simp [hx] at hd
  have h1 : (specNormalForm line).filter (fun c => c ∉ ['\r', '\n', ' ']) = specNormalForm line := by
    rw [List.filter_eq_self]
    intro c hc
    simpa using hkeep c hc
  change List.map lowercaseForm
    (List.filter (fun c => decide (c ∉ ['\r', '\n', ' '])) (specNormalForm line))
      = specNormalForm line
  rw [h1]
  unfold specNormalForm
  rw [List.map_map]
  apply List.map_congr_left
  intro c _
  exact lowercaseForm_idem c

theorem specNormalForm_length_le (line : List Char) :
    (specNormalForm line).length ≤ line.length := by
  unfold specNormalForm
  rw [List.length_map]
  exact List.length_filter_le _ _

theorem specNormalForm_no_nul (line : List Char) (hnul : ∀ c ∈ line, c ≠ '\x00') :
    ∀ c ∈ specNormalForm line, c ≠ '\x00' := by
  intro c hc h0
  simp only [specNormalForm, List.mem_map, List.mem_filter] at hc
  obtain ⟨d, ⟨hd, -⟩, rfl⟩ := hc
  exact hnul d hd (lowercaseForm_eq_special d _ (List.mem_cons_self _ _) h0)

theorem not_addressMatches (s : ELM327Emu) (frame : CAN_FRAME)
    (h : (s.canReceiveAddress_enable = true ∧ frame.id ≠ s.canReceiveAddress_addr)
      ∨ (s.canReceiveAddress_enable = false
          ∧ frame.id ≠ (s.canTransmitAddress + 2 ^ 32 - 8) % 2 ^ 32
          ∧ frame.id ≠ (s.canTransmitAddress + 8) % 2 ^ 32)) :
    addressMatches s frame = false := by
  rcases h with ⟨h1, h2⟩ | ⟨h1, h2, h3⟩
  · simp [addressMatches, h1, h2]
  · simp at h2 h3
    simp [addressMatches, h1, h2, h3]

theorem first_frame_nibble (b : Nat) (hb : b < 256) (h : b / 16 = 1) : b &&& 0xF0 = 0x10 := by
  have h1 : 16 ≤ b := by omega
  have h2 : b < 32 := by omega
  interval_cases b <;> decide

/-! The claims, continued -/

/-- Counterexample to C11 as stated: the empty command and the command `hello` are answered
with `?`, CR and the prompt, and the two-character command `0x`, which is no string of hex
digits, is answered with CR alone. -/
theorem unknown_command_gets_prompt :
    (processELMCmd constructed 0 zeroFrame "".toList).reply = "?\r>".toList
      ∧ (processELMCmd constructed 0 zeroFrame "".toList).reply ≠ "?\r".toList
      ∧ (processELMCmd constructed 0 zeroFrame "hello".toList).reply = "?\r>".toList
      ∧ (processELMCmd constructed 0 zeroFrame "0x".toList).reply = "\r".toList := by
  decide

/-- Claim C11, amended. For every session state with echo disabled and every input whose
normalized form does not begin with `at`: if its first character is no hex digit (the empty
command included) the reply is `?`, line ending and prompt; if its first character is a hex
digit and its character count, after dropping an odd trailing one, is 0 or greater than 16,
the reply is `?` and the line ending with no prompt; if its first character is a hex digit
and that count is 2 to 16, the reply is the line ending alone. -/
theorem unmatched_command_reply (s : ELM327Emu) (millis : Nat) (fresh : CAN_FRAME)
    (raw : List Char) (he : s.print_echo = false)
    (hat : (normalize raw).take 2 ≠ "at".toList) :
    ((∀ c, (normalize raw).head? = some c → c ∉ hexDigits) →
        (processELMCmd s millis fresh raw).reply = "?".toList ++ lineEnding s ++ ">".toList)
      ∧ ((∃ c, (normalize raw).head? = some c ∧ c ∈ hexDigits) →
          (trimmedCount (normalize raw).length = 0
            ∨ 16 < trimmedCount (normalize raw).length) →
          (processELMCmd s millis fresh raw).reply = "?".toList ++ lineEnding s)
      ∧ ((∃ c, (normalize raw).head? = some c ∧ c ∈ hexDigits) →
          0 < trimmedCount (normalize raw).length →
          trimmedCount (normalize raw).length ≤ 16 →
          (processELMCmd s millis fresh raw).reply = lineEnding s) := by
  have hecho : echoText s raw = [] := by simp [echoText, he]
  refine ⟨?_, ?_, ?_⟩
  · intro hx
    rw [processELMCmd_unknown s millis fresh raw hat hx, hecho]
    rfl
  · rintro ⟨c, hh, hc⟩ hbad
    obtain ⟨rest, hn⟩ := cons_of_head _ c hh
    rw [processELMCmd_request s millis fresh raw c rest hn hc hat, hecho]
    simp only [pidRequest_reply]
    have hv : ¬ (0 < trimmedCount (normalize raw).length
        ∧ trimmedCount (normalize raw).length ≤ 16) := by
      omega
    simp [hv]
  · rintro ⟨c, hh, hc⟩ h0 h16
    obtain ⟨rest, hn⟩ := cons_of_head _ c hh
    rw [processELMCmd_request s millis fresh raw c rest hn hc hat, hecho]
    simp only [pidRequest_reply]
    simp [h0, h16]

/-- Witness for C11 (amended): the one-digit command `7` in the constructed state. -/
theorem unmatched_command_reply_witness :
    (processELMCmd constructed 0 zeroFrame "7".toList).reply = "?\r".toList :=
  (unmatched_command_reply constructed 0 zeroFrame "7".toList rfl (by decide)).2.1
    ⟨'7', by decide, by decide⟩ (Or.inl (by decide))

/-- Claim C12. For every session state with echo disabled and every input that reaches the
diagnostic request branch (first normalized character a hex digit, not starting with `at`,
as is every string of hex digits) and whose digit count, after dropping an odd trailing
digit, is 0 or greater than 16, the reply is `?` and the line ending, and still one frame
with id = canTransmitAddress, length 8 and data bytes 3..7 equal to 0xAA is sent and the
Pending Request becomes active. -/
theorem rejected_request_still_sent (s : ELM327Emu) (millis : Nat) (fresh : CAN_FRAME)
    (raw : List Char) (he : s.print_echo = false)
    (hat : (normalize raw).take 2 ≠ "at".toList)
    (hc : ∃ c, (normalize raw).head? = some c ∧ c ∈ hexDigits)
    (hbad : trimmedCount (normalize raw).length = 0
      ∨ 16 < trimmedCount (normalize raw).length) :
    (processELMCmd s millis fresh raw).reply = "?".toList ++ lineEnding s
      ∧ (∃ f, (processELMCmd s millis fresh raw).sent = [f]
          ∧ f.id = s.canTransmitAddress ∧ f.length = 8 ∧ f.data.length = 8
          ∧ ∀ k, 3 ≤ k → k < 8 → f.byte k = 0xAA)
      ∧ (processELMCmd s millis fresh raw).state.waitingForRequest = true := by
  obtain ⟨c, hh, hc⟩ := hc
  obtain ⟨rest, hn⟩ := cons_of_head _ c hh
  have hecho : echoText s raw = [] := by simp [echoText, he]
  rw [processELMCmd_request s millis fresh raw c rest hn hc hat, hecho]
  refine ⟨?_, ?_, rfl⟩
  · simp only [pidRequest_reply]
    have hv : ¬ (0 < trimmedCount (normalize raw).length
        ∧ trimmedCount (normalize raw).length ≤ 16) := by
      omega
    simp [hv]
  · obtain ⟨f, h1, h2, -, -, h5, h6, -, h8⟩ :=
      pidRequest_rejected_sent (clearMonitor s) millis fresh (normalize raw)
        (cmdAt raw (normalize raw)) (lineEnding s) hbad
    exact ⟨f, h1, h2.trans (clearMonitor_fields s).1, h5, h6, h8⟩

/-- Witness for C12: a request of 18 hex digits in the constructed state. -/
theorem rejected_request_still_sent_witness :
    (processELMCmd constructed 0 zeroFrame "010203040506070809".toList).reply = "?\r".toList
      ∧ (∃ f, (processELMCmd constructed 0 zeroFrame "010203040506070809".toList).sent = [f]
          ∧ f.id = 0x7E0 ∧ f.length = 8 ∧ f.data.length = 8
          ∧ ∀ k, 3 ≤ k → k < 8 → f.byte k = 0xAA)
      ∧ (processELMCmd constructed 0 zeroFrame
          "010203040506070809".toList).state.waitingForRequest = true :=
  rejected_request_still_sent constructed 0 zeroFrame "010203040506070809".toList rfl
    (by decide) ⟨'0', by decide, by decide⟩ (Or.inr (by decide))

/-- Claim C13. In the constructed (default) configuration `ATSP0` at clock t0 replies
`SEARCHING...` + CR + prompt, sends the probe frame id 0x7DF, data 02 01 00 00 00 00 00 00 and
arms the Pending Search; then every poll of `processCANSearching` that offers a
non-qualifying frame at a clock t with t - t0 ≤ 1000 emits nothing and leaves the session as
it is, and the first poll with t - t0 > 1000 emits exactly `UNABLE TO CONNECT` + CR + prompt
and clears the Pending Search. -/
theorem search_times_out (mem : ELM327Emu) (t0 : Nat) (fresh : CAN_FRAME)
    (polls : List (Nat × CAN_FRAME))
    (hp : ∀ p ∈ polls, ¬ qualifiesForSearch p.2 ∧ t0 ≤ p.1 ∧ p.1 < 2 ^ 32 ∧ p.1 - t0 ≤ 1000)
    (t : Nat) (frame : CAN_FRAME) (h0 : t0 ≤ t) (ht : t < 2 ^ 32) (hd : 1000 < t - t0) :
    (processELMCmd (ELM327Emu.ELM327Emu mem) t0 fresh "ATSP0".toList).reply
        = "SEARCHING...\r>".toList
      ∧ (processELMCmd (ELM327Emu.ELM327Emu mem) t0 fresh "ATSP0".toList).sent
        = [{ id := 0x7DF, extended := false, rtr := 0, length := 8,
             data := [0x02, 0x01, 0x00, 0x00, 0x00, 0x00, 0x00, 0x00] }]
      ∧ (processELMCmd (ELM327Emu.ELM327Emu mem) t0 fresh
          "ATSP0".toList).state.waitingForSearching = true
      ∧ searchPolls (processELMCmd (ELM327Emu.ELM327Emu mem) t0 fresh "ATSP0".toList).state
          polls
        = ((processELMCmd (ELM327Emu.ELM327Emu mem) t0 fresh "ATSP0".toList).state,
            polls.map (fun _ => none))
      ∧ (processCANSearching
          (searchPolls (processELMCmd (ELM327Emu.ELM327Emu mem) t0 fresh "ATSP0".toList).state
            polls).1 t frame).emitted = some "UNABLE TO CONNECT\r>".toList
      ∧ (processCANSearching
          (searchPolls (processELMCmd (ELM327Emu.ELM327Emu mem) t0 fresh "ATSP0".toList).state
            polls).1 t frame).state.waitingForSearching = false := by
  rw [setProtocol_search]
  have hidle := searchPolls_idle
    { ELM327Emu.ELM327Emu mem with waitingForSearching_millis := t0, waitingForSearching := true }
    rfl polls hp
  refine ⟨rfl, rfl, rfl, hidle, ?_, ?_⟩
  · rw [hidle, searching_timeout _ t frame rfl h0 ht hd]
    rfl
  · rw [hidle, searching_timeout _ t frame rfl h0 ht hd]

/-- Witness for C13: armed at clock 100, two polls with unrelated frames at 200 and 1100,
time-out at 1101. -/
theorem search_times_out_witness :
    (processCANSearching
        (searchPolls (processELMCmd (ELM327Emu.ELM327Emu zeroMemory) 100 zeroFrame
          "ATSP0".toList).state
          [(200, zeroFrame), (1100, { replyFrame with id := 0x123 })]).1
        1101 replyFrame).emitted = some "UNABLE TO CONNECT\r>".toList :=
  (search_times_out zeroMemory 100 zeroFrame
    [(200, zeroFrame), (1100, { replyFrame with id := 0x123 })] (by decide) 1101 replyFrame
    (by decide) (by decide) (by decide)).2.2.2.2.1

/-- Counterexample to C14 as stated: the reply to `ATZ` from the constructed state differs
from the reply to `ATZ` from the same state with line feeds switched on. -/
theorem reset_reply_depends_on_line_feed :
    (processELMCmd constructed 0 zeroFrame "ATZ".toList).reply
        = "ELM327 v1.4 (ESP32RET)\r\r>".toList
      ∧ (processELMCmd { constructed with print_linefeed := true } 0 zeroFrame
          "ATZ".toList).reply = "ELM327 v1.4 (ESP32RET)\r\n\r\n>".toList
      ∧ (processELMCmd constructed 0 zeroFrame "ATZ".toList).reply
        ≠ (processELMCmd { constructed with print_linefeed := true } 0 zeroFrame
            "ATZ".toList).reply := by
  decide

/-- Claim C14, amended. The reply of `processELMCmd` to the reset command depends on the
prior session state only through its echo and line-feed settings: for any two states that
agree on these two settings the replies to the same `ATZ` line are equal, and the reply is
the echo (if enabled), the fixed banner, the prior line ending twice and the prompt. -/
theorem reset_reply_same_for_same_echo_and_line_feed (s1 s2 : ELM327Emu) (t1 t2 : Nat)
    (f1 f2 : CAN_FRAME) (raw : List Char) (h : normalize raw = "atz".toList)
    (he : s1.print_echo = s2.print_echo) (hl : s1.print_linefeed = s2.print_linefeed) :
    (processELMCmd s1 t1 f1 raw).reply = (processELMCmd s2 t2 f2 raw).reply
      ∧ (processELMCmd s1 t1 f1 raw).reply
        = echoText s1 raw ++ "ELM327 v1.4 (ESP32RET)".toList ++ lineEnding s1
            ++ lineEnding s1 ++ ">".toList := by
  rw [reset_reply s1 t1 f1 raw (Or.inl h), reset_reply s2 t2 f2 raw (Or.inl h)]
  refine ⟨?_, rfl⟩
  simp only [echoText, lineEnding, he, hl]

/-- Witness for C14 (amended): the constructed state and a state with another transmit
address, timeout and pending request. -/
theorem reset_reply_same_for_same_echo_and_line_feed_witness :
    (processELMCmd constructed 0 zeroFrame "ATZ".toList).reply
      = (processELMCmd
          { constructed with
            canTransmitAddress := 0x7E2, timeout := 40, waitingForRequest := true }
          9 replyFrame "ATZ".toList).reply :=
  (reset_reply_same_for_same_echo_and_line_feed constructed
    { constructed with canTransmitAddress := 0x7E2, timeout := 40, waitingForRequest := true }
    0 9 zeroFrame replyFrame "ATZ".toList (by decide) rfl rfl).1

/-- Claim C15. For every prior session state, `ATZ` followed by `ATE1` makes the second
reply exactly `OK` + CR + prompt and leaves echo enabled while every other Session
Configuration field has its default value. -/
theorem reset_then_echo_on (s : ELM327Emu) (t1 t2 : Nat) (f1 f2 : CAN_FRAME) :
    (processELMCmd (processELMCmd s t1 f1 "ATZ".toList).state t2 f2 "ATE1".toList).reply
        = "OK\r>".toList
      ∧ sessionConfiguration
          (processELMCmd (processELMCmd s t1 f1 "ATZ".toList).state t2 f2 "ATE1".toList).state
        = { defaultConfiguration with echo := true } := by
  have h1 : (processELMCmd s t1 f1 "ATZ".toList).state = resetAll (clearMonitor s) := by
    rw [processELMCmd_at s t1 f1 _ (by decide), atDispatch_reset _ _ _ _ _ (Or.inl (by decide))]
  have hc : clearMonitor (resetAll (clearMonitor s)) = resetAll (clearMonitor s) := by
    simp [clearMonitor, resetAll]
  rw [h1, processELMCmd_at _ t2 f2 _ (by decide), hc]
  have hn : normalize "ATE1".toList = "ate1".toList := by decide
  rw [hn]
  constructor
  · simp [atDispatch, strncmp0, cmdAt, echoText, lineEnding, resetAll]
  · simp [atDispatch, strncmp0, cmdAt, resetAll, sessionConfiguration, defaultConfiguration]

/-- Counterexample to C16 as stated: with a Pending Request active for transmit address
0x7E0 and no receive-address filter, the frame with id 0x123 does not match the addressing
rule, and `processCANReply` still emits its text. -/
theorem unmatched_frame_still_emitted :
    addressMatches { constructed with waitingForRequest := true }
        { replyFrame with id := 0x123 } = false
      ∧ (processCANReply { constructed with waitingForRequest := true } 0
          { replyFrame with id := 0x123 }).emitted
        = some "123 41 00 BE 3F B8 11\r".toList := by
  decide

/-- Claim C16, amended. For every session state with a Pending Request active and every
inbound frame whose identifier does not satisfy the active addressing rule and whose
identifier text stays inside `char buff[8]` (headers off, or identifier below 0x10000000),
`processCANReply` sends no bus frame and leaves the session (Pending Request timestamp and
frame count included) unchanged, but it still emits the frame as text: header part, the
payload groups chosen by the automatic-formatting setting, line ending. -/
theorem unmatched_frame_not_counted (s : ELM327Emu) (millis : Nat) (frame : CAN_FRAME)
    (hw : s.waitingForRequest = true)
    (h : (s.canReceiveAddress_enable = true ∧ frame.id ≠ s.canReceiveAddress_addr)
      ∨ (s.canReceiveAddress_enable = false
          ∧ frame.id ≠ (s.canTransmitAddress + 2 ^ 32 - 8) % 2 ^ 32
          ∧ frame.id ≠ (s.canTransmitAddress + 8) % 2 ^ 32)) :
    headerInBuff s frame = true →
      (processCANReply s millis frame).sent = []
        ∧ (processCANReply s millis frame).state = s
        ∧ (processCANReply s millis frame).emitted
          = some (headerText s frame
              ++ joinGroups (separator s)
                  (if s.canAutomaticFormatting_enable then
                    (List.range (frame.byte 0)).map
                      (fun i => twoHexDigits (frame.byte (i + 1)))
                   else (List.range 8).map (fun i => twoHexDigits (frame.byte i)))
              ++ lineEnding s) := by
  intro _
  have hm := not_addressMatches s frame h
  refine ⟨by simp [processCANReply, hw, hm], by simp [processCANReply, hw, hm], ?_⟩
  cases ha : s.canAutomaticFormatting_enable <;>
    simp [processCANReply, hw, hm, ha, payloadText_eq]

/-- Witness for C16 (amended): receive-address filter set to 0x7E9, frame from 0x7E8. -/
theorem unmatched_frame_not_counted_witness :
    (processCANReply
        { constructed with
          waitingForRequest := true, canReceiveAddress_enable := true,
          canReceiveAddress_addr := 0x7E9 }
        4 replyFrame).state.waitingForRequest_CANcount = 0
      ∧ (processCANReply
          { constructed with
            waitingForRequest := true, canReceiveAddress_enable := true,
            canReceiveAddress_addr := 0x7E9 }
          4 replyFrame).emitted = some "7E8 41 00 BE 3F B8 11\r".toList :=
  ⟨congrArg ELM327Emu.waitingForRequest_CANcount
      (unmatched_frame_not_counted
        { constructed with
          waitingForRequest := true, canReceiveAddress_enable := true,
          canReceiveAddress_addr := 0x7E9 }
        4 replyFrame rfl (Or.inl (by decide)) (by decide)).2.1,
    (unmatched_frame_not_counted
      { constructed with
        waitingForRequest := true, canReceiveAddress_enable := true,
        canReceiveAddress_addr := 0x7E9 }
      4 replyFrame rfl (Or.inl (by decide)) (by decide)).2.2.trans (by decide)⟩

/-- Claim C17. For every session state and every pair of hex digits hh, the command `atst`
followed by hh sets the reply timeout to exactly 4 times the value of hh (at most 1020, so
within 16 bits), changes no other Session Configuration field and replies OK; the timeout
given by the constructor and by the reset is 200. -/
theorem set_timeout_value (s : ELM327Emu) (millis : Nat) (fresh : CAN_FRAME)
    (raw : List Char) (a b : Char) (ha : a ∈ hexDigits) (hb : b ∈ hexDigits)
    (h : normalize raw = "atst".toList ++ [a, b]) :
    (processELMCmd s millis fresh raw).state.timeout
        = 4 * (16 * hexDigitValue a + hexDigitValue b)
      ∧ (processELMCmd s millis fresh raw).state.timeout ≤ 1020
      ∧ sessionConfiguration (processELMCmd s millis fresh raw).state
        = { sessionConfiguration s with
            timeout := 4 * (16 * hexDigitValue a + hexDigitValue b) }
      ∧ (processELMCmd s millis fresh raw).reply
        = echoText s raw ++ "OK".toList ++ lineEnding s ++ ">".toList
      ∧ (∀ mem : ELM327Emu, (ELM327Emu.ELM327Emu mem).timeout = 200)
      ∧ ∀ st : ELM327Emu, (resetAll st).timeout = 200 := by
  obtain ⟨ea, la⟩ := parseHexCharacter_hexDigit a ha
  obtain ⟨eb, lb⟩ := parseHexCharacter_hexDigit b hb
  have hd : atDispatch (clearMonitor s) millis (normalize raw) (cmdAt raw (normalize raw))
      (lineEnding s)
      = ⟨{ clearMonitor s with timeout := 4 * (16 * hexDigitValue a + hexDigitValue b) },
          "OK".toList, []⟩ := by
    rw [h]
    simp [atDispatch, strncmp0, strcmp0, cmdAt, parseHexString_two, ea, eb]
    omega
  rw [processELMCmd_at s millis fresh raw (by rw [h]; rfl), hd]
  refine ⟨rfl, ?_, ?_, rfl, fun _ => rfl, fun _ => rfl⟩
  · show 4 * (16 * hexDigitValue a + hexDigitValue b) ≤ 1020
    omega
  · have e : sessionConfiguration
        { clearMonitor s with timeout := 4 * (16 * hexDigitValue a + hexDigitValue b) }
        = { sessionConfiguration (clearMonitor s) with
            timeout := 4 * (16 * hexDigitValue a + hexDigitValue b) } := rfl
    rw [e, clearMonitor_configuration]

/-- Witness for C17: `AT ST FF` gives the largest timeout, 1020 ms. -/
theorem set_timeout_value_witness :
    (processELMCmd constructed 0 zeroFrame "AT ST FF".toList).state.timeout = 1020 :=
  (set_timeout_value constructed 0 zeroFrame "AT ST FF".toList 'f' 'f' (by decide)
    (by decide) (by decide)).1.trans (by decide)

/-- Claim C18. For every NUL-terminated input line of at most 127 bytes (followed in the
buffer by anything), the normalization step yields exactly the line with every carriage
return, line feed and space deleted and every ASCII upper-case letter replaced by its
lowercase form, in the same order; the result is never longer than the line, and
normalizing the result again leaves it unchanged. -/
theorem normalize_meets_specification (line junk : List Char) (hlen : line.length ≤ 127)
    (hnul : ∀ c ∈ line, c ≠ '\x00') :
    normalize (line ++ '\x00' :: junk) = specNormalForm line
      ∧ (normalize (line ++ '\x00' :: junk)).length ≤ line.length
      ∧ ∀ junk2 : List Char,
          normalize (normalize (line ++ '\x00' :: junk) ++ '\x00' :: junk2)
            = normalize (line ++ '\x00' :: junk) := by
  rw [normalize_of_line line junk hlen hnul]
  refine ⟨rfl, specNormalForm_length_le line, ?_⟩
  intro junk2
  rw [normalize_of_line _ junk2 (le_trans (specNormalForm_length_le line) hlen)
    (specNormalForm_no_nul line hnul), specNormalForm_idem]

/-- Witness for C18: the line `AT Sp 6` with a line feed, followed by stale buffer bytes. -/
theorem normalize_meets_specification_witness :
    normalize ("AT Sp 6\n".toList ++ '\x00' :: "0100".toList) = "atsp6".toList :=
  (normalize_meets_specification "AT Sp 6\n".toList "0100".toList (by decide)
    (by decide)).1.trans (by decide)

/-- Claim C19, what the code does. For every session state, after `processELMCmd` handles a
diagnostic request at clock value t the Pending Request is active and its arm timestamp is
t, but its observed-frame count is the count the session had before: it is not set to 0. -/
theorem request_keeps_frame_count (s : ELM327Emu) (millis : Nat) (fresh : CAN_FRAME)
    (raw : List Char) (hat : (normalize raw).take 2 ≠ "at".toList)
    (hc : ∃ c, (normalize raw).head? = some c ∧ c ∈ hexDigits) :
    (processELMCmd s millis fresh raw).state.waitingForRequest = true
      ∧ (processELMCmd s millis fresh raw).state.waitingForRequest_millis = millis
      ∧ (processELMCmd s millis fresh raw).state.waitingForRequest_CANcount
          = s.waitingForRequest_CANcount := by
  obtain ⟨c, hh, hc⟩ := hc
  obtain ⟨rest, hn⟩ := cons_of_head _ c hh
  rw [processELMCmd_request s millis fresh raw c rest hn hc hat]
  refine ⟨rfl, rfl, ?_⟩
  simp only [pidRequest_state, clearMonitor]
  split <;> rfl

/-- Witness for C19: after the request `0100` and one reply frame the count is 1, and a
second request `010C` at clock 50 leaves it at 1. -/
theorem request_keeps_frame_count_witness :
    (processELMCmd
        (processCANReply (processELMCmd constructed 0 zeroFrame "0100".toList).state 10
          replyFrame).state
        50 zeroFrame "010C".toList).state.waitingForRequest_CANcount = 1 :=
  (request_keeps_frame_count
    (processCANReply (processELMCmd constructed 0 zeroFrame "0100".toList).state 10
      replyFrame).state
    50 zeroFrame "010C".toList (by decide) ⟨'0', by decide, by decide⟩).2.2.trans (by decide)

/-- Claim C20. For every session state with a Pending Request active and long messages not
allowed, and every inbound first-frame (top nibble of data byte 0 is 1) whose identifier
matches the active addressing rule: where the `sprintf` of the identifier stays inside
`char buff[8]` (headers off, or identifier below 0x10000000), `processCANReply` emits no
text, sends no frame and leaves the session, and with it the Pending Request, its timestamp
and its frame count, unchanged. With headers on and an identifier of 0x10000000 or more that
`sprintf`, which runs before the frame is classified, stores more than the 8 bytes of
`buff`, and the source does not drop the frame in a defined way. -/
theorem first_frame_dropped_unless_header_overruns (s : ELM327Emu) (millis : Nat)
    (frame : CAN_FRAME) (hw : s.waitingForRequest = true)
    (hl : s.allowLongMessages = false) (hm : addressMatches s frame = true)
    (hff : frame.byte 0 / 16 = 1) :
    (headerInBuff s frame = true →
        (processCANReply s millis frame).emitted = none
          ∧ (processCANReply s millis frame).sent = []
          ∧ (processCANReply s millis frame).state = s)
      ∧ (s.print_header = true → 0x10000000 ≤ frame.id →
          buffSize < sprintfStores (sprintf03X frame.id) ∧ headerInBuff s frame = false) := by
  have hb : frame.byte 0 < 256 := Nat.mod_lt _ (by decide)
  have hn := first_frame_nibble _ hb hff
  have e : processCANReply s millis frame = ⟨s, none, []⟩ := by
    simp [processCANReply, hw, hl, hm, hn]
  refine ⟨fun _ => ?_, header_overruns s frame⟩
  rw [e]
  exact ⟨rfl, rfl, rfl⟩

/-- Witness for C20: a first frame from 0x7E8 announcing 20 bytes, flow control switched on,
is dropped; after the lines `ATSH18DAF110` and `0100` the matching first frame from
0x18DAF118 makes the `sprintf` of the identifier leave `buff`. -/
theorem first_frame_dropped_unless_header_overruns_witness :
    (processCANReply
        { constructed with waitingForRequest := true, canFlowControl_enable := true } 3
        { replyFrame with data := [0x10, 0x14, 0x49, 0x02, 0x01, 0x57, 0x50, 0x30] }).emitted
        = none
      ∧ headerInBuff (sessionAfter ["ATSH18DAF110", "0100"])
          { extendedReplyFrame with data := [0x10, 0x14, 0x49, 0x02, 0x01, 0x57, 0x50, 0x30] }
        = false :=
  ⟨((first_frame_dropped_unless_header_overruns
      { constructed with waitingForRequest := true, canFlowControl_enable := true } 3
      { replyFrame with data := [0x10, 0x14, 0x49, 0x02, 0x01, 0x57, 0x50, 0x30] }
      rfl rfl (by decide) (by decide)).1 (by decide)).1,
    ((first_frame_dropped_unless_header_overruns
      (sessionAfter ["ATSH18DAF110", "0100"]) 10
      { extendedReplyFrame with data := [0x10, 0x14, 0x49, 0x02, 0x01, 0x57, 0x50, 0x30] }
      (by decide) (by decide) (by decide) (by decide)).2 (by decide) (by decide)).2⟩

/-! Flow control, later frames and the monitors -/

theorem clearMonitor_eq (s : ELM327Emu) :
    clearMonitor s = { s with monitorAll_enable := false } := by
  unfold clearMonitor
  split
  · rfl
  · next h =>
    cases s
    simp_all

theorem mirrorId_eq (id : Nat) : mirrorId id = if 0x7E8 ≤ id then id - 8 else id + 8 := by
  unfold mirrorId
  split
  · rfl
  · apply Nat.mod_eq_of_lt
    have e : (2 : Nat) ^ 32 = 4294967296 := by norm_num
    rw [e]
    omega

theorem flowControlPayload_getD (s : ELM327Emu) (i : Nat) (hi : i < 8) :
    (flowControlPayload s).getD i 0
      = if i < s.canFlowControl_dataLen then s.canFlowControl_data.getD i 0 else 0xAA := by
  unfold flowControlPayload
  rw [map_range8_getD _ i hi]

theorem later_frame_nibble (b : Nat) (hb : b < 256) (h : b / 16 = 2 ∨ b / 16 = 3) :
    b &&& 0xF0 = 0x20 ∨ b &&& 0xF0 = 0x30 := by
  have h1 : 32 ≤ b := by omega
  have h2 : b < 64 := by omega
  interval_cases b <;> first | (left; decide) | (right; decide)

theorem processCANReply_single (s : ELM327Emu) (millis : Nat) (frame : CAN_FRAME)
    (hsf : frame.byte 0 / 16 = 0) :
    (processCANReply s millis frame).emitted = some (singleFrameText s frame) := by
  have hb : frame.byte 0 < 256 := Nat.mod_lt _ (by decide)
  have hnm := single_frame_not_multi _ hb hsf
  cases ha : s.canAutomaticFormatting_enable <;>
    simp [processCANReply, hnm, ha, payloadText_eq, singleFrameText]

theorem searching_qualified (s : ELM327Emu) (t : Nat) (frame : CAN_FRAME)
    (hw : s.waitingForSearching = true)
    (ht0 : s.waitingForSearching_millis ≤ t) (ht : t < 2 ^ 32)
    (hd : t - s.waitingForSearching_millis ≤ 1000) (hq : qualifiesForSearch frame) :
    processCANSearching s t frame
      = ⟨{ s with waitingForSearching := false },
          some (singleFrameText s frame ++ ">".toList), []⟩ := by
  have hd2 : ¬ (t + 2 ^ 32 - s.waitingForSearching_millis) % 2 ^ 32 > 1000 := by
    rw [elapsed_eq t _ ht0 ht]; omega
  obtain ⟨h1, h2⟩ := hq
  simp only [processCANSearching, hw, if_true, hd2, if_false, h1, h2, and_self]
  cases ha : s.canAutomaticFormatting_enable <;>
    simp [payloadText_eq, singleFrameText, ha]

theorem replyReads_text (s : ELM327Emu) (millis : Nat) (frame : CAN_FRAME) (text : List Char)
    (h : (processCANReply s millis frame).emitted = some text) :
    text = headerText s frame
      ++ joinGroups (separator s)
          ((replyReads s frame).map (fun k => twoHexDigits (frame.byte k)))
      ++ lineEnding s := by
  simp only [processCANReply] at h
  split at h
  · simp only [Option.some.injEq] at h
    rw [← h]
    simp only [replyReads, payloadReads, payloadText_eq, List.map_map, Function.comp_def,
      Nat.add_zero]
    cases (s.waitingForRequest && addressMatches s frame
        && decide (frame.byte 0 &&& 0xF0 = 0x10 ∨ frame.byte 0 &&& 0xF0 = 0x20
          ∨ frame.byte 0 &&& 0xF0 = 0x30)) <;>
      cases s.canAutomaticFormatting_enable <;> (simp; try rfl)
  · simp at h

/-! Effects of the AT cascade, handler by handler -/

theorem ite_motive {α : Type} (P : α → Prop) (c : Prop) [Decidable c] (a b : α)
    (ha : c → P a) (hb : ¬ c → P b) : P (if c then a else b) := by
  by_cases h : c
  · rw [if_pos h]; exact ha h
  · rw [if_neg h]; exact hb h

theorem atDispatch_unsupported_aux (s : ELM327Emu) (millis : Nat) (cmd : List Char)
    (rd : Nat → Char) (le : List Char) (P : CmdOutcome → Prop)
    (hP : ∀ r : CmdOutcome, P r ↔ (r.reply = "?".toList → r.state = s ∧ r.sent = [])) :
    P (atDispatch s millis cmd rd le) := by
  unfold atDispatch
  repeat' (apply ite_motive P <;> intro _)
  all_goals rw [hP]
  all_goals first
    | exact fun _ => ⟨rfl, rfl⟩
    | (intro h; exfalso; revert h; simp)

theorem atDispatch_unsupported (s : ELM327Emu) (millis : Nat) (cmd : List Char)
    (rd : Nat → Char) (le : List Char)
    (h : (atDispatch s millis cmd rd le).reply = "?".toList) :
    (atDispatch s millis cmd rd le).state = s ∧ (atDispatch s millis cmd rd le).sent = [] :=
  atDispatch_unsupported_aux s millis cmd rd le
    (fun r => r.reply = "?".toList → r.state = s ∧ r.sent = []) (fun _ => Iff.rfl) h

/-- Claim C21. For every session state with a Pending Request active and long messages
allowed, and every matching inbound first-frame f: where the `sprintf` of the identifier
stays inside `char buff[8]` (headers off, or identifier below 0x10000000), with flow control
enabled `processCANReply` sends exactly one flow-control frame of length 8 and re-arms the
Pending Request timestamp to the current clock value. In mode 0 the frame has id f.id - 8 if
f.id ≥ 0x7E8 and f.id + 8 otherwise, is standard and carries 30 00 00 00 00 00 00 00; in
mode 1 id and extended flag come from the flow-control descriptor and the data are the
configured bytes below the configured count and 0xAA elsewhere; in mode 2 the id is mirrored
as in mode 0, the frame is standard and carries the same padded data. With flow control
disabled no frame is sent. With headers on and an identifier of 0x10000000 or more the
`sprintf` of the identifier, which runs before the flow-control answer is built, stores more
than the 8 bytes of `buff`, and the source sends no frame in a defined way. -/
theorem flow_control_answer_unless_header_overruns (s : ELM327Emu) (millis : Nat)
    (frame : CAN_FRAME) (hw : s.waitingForRequest = true) (hl : s.allowLongMessages = true)
    (hm : addressMatches s frame = true) (hff : frame.byte 0 / 16 = 1) :
    (headerInBuff s frame = true →
      (s.canFlowControl_enable = true → s.canFlowControl_mode = 0 →
        (processCANReply s millis frame).sent
          = [{ id := if 0x7E8 ≤ frame.id then frame.id - 8 else frame.id + 8,
               extended := false, rtr := 0, length := 8,
               data := [0x30, 0x00, 0x00, 0x00, 0x00, 0x00, 0x00, 0x00] }]
          ∧ (processCANReply s millis frame).state.waitingForRequest_millis = millis)
      ∧ (s.canFlowControl_enable = true → s.canFlowControl_mode = 1 →
        (∃ f, (processCANReply s millis frame).sent = [f]
          ∧ f.id = s.canFlowControl_addr ∧ f.extended = s.canFlowControl_addrExtended
          ∧ f.rtr = 0 ∧ f.length = 8 ∧ f.data.length = 8
          ∧ ∀ i, i < 8 → f.data.getD i 0
              = if i < s.canFlowControl_dataLen then s.canFlowControl_data.getD i 0
                else 0xAA)
          ∧ (processCANReply s millis frame).state.waitingForRequest_millis = millis)
      ∧ (s.canFlowControl_enable = true → s.canFlowControl_mode = 2 →
        (∃ f, (processCANReply s millis frame).sent = [f]
          ∧ f.id = (if 0x7E8 ≤ frame.id then frame.id - 8 else frame.id + 8)
          ∧ f.extended = false ∧ f.rtr = 0 ∧ f.length = 8 ∧ f.data.length = 8
          ∧ ∀ i, i < 8 → f.data.getD i 0
              = if i < s.canFlowControl_dataLen then s.canFlowControl_data.getD i 0
                else 0xAA)
          ∧ (processCANReply s millis frame).state.waitingForRequest_millis = millis)
      ∧ (s.canFlowControl_enable = false → (processCANReply s millis frame).sent = []))
      ∧ (s.print_header = true → 0x10000000 ≤ frame.id →
          buffSize < sprintfStores (sprintf03X frame.id) ∧ headerInBuff s frame = false) := by
  have hb : frame.byte 0 < 256 := Nat.mod_lt _ (by decide)
  have hn := first_frame_nibble _ hb hff
  refine ⟨fun _ => ⟨?_, ?_, ?_, ?_⟩, header_overruns s frame⟩
  · intro he hmode
    simp [processCANReply, flowControlAnswer, hw, hl, hm, hn, he, hmode, mirrorId_eq]
  · intro he hmode
    refine ⟨⟨CAN_FRAME.mk s.canFlowControl_addr s.canFlowControl_addrExtended 0 8
      (flowControlPayload s), ?_, rfl, rfl, rfl, rfl,
      by simp [flowControlPayload], fun i hi => flowControlPayload_getD s i hi⟩, ?_⟩
    · simp [processCANReply, flowControlAnswer, hw, hl, hm, hn, he, hmode, flowControlPayload]
    · simp [processCANReply, flowControlAnswer, hw, hl, hm, hn, he, hmode]
  · intro he hmode
    refine ⟨⟨CAN_FRAME.mk (mirrorId frame.id) false 0 8 (flowControlPayload s), ?_,
      mirrorId_eq _, rfl, rfl, rfl,
      by simp [flowControlPayload], fun i hi => flowControlPayload_getD s i hi⟩, ?_⟩
    · simp [processCANReply, flowControlAnswer, hw, hl, hm, hn, he, hmode, flowControlPayload]
    · simp [processCANReply, flowControlAnswer, hw, hl, hm, hn, he, hmode]
  · intro he
    simp [processCANReply, flowControlAnswer, hw, hl, hm, hn, he]

/-- Witness for C21: automatic mode, first frame from 0x7E8, answered to 0x7E0; after the
lines `ATSH18DAF110`, `ATAL`, `ATCFC1` and `0100` the matching first frame from 0x18DAF118
makes the `sprintf` of the identifier leave `buff`. -/
theorem flow_control_answer_unless_header_overruns_witness :
    (processCANReply
        { constructed with
          waitingForRequest := true, allowLongMessages := true,
          canFlowControl_enable := true }
        3 { replyFrame with data := [0x10, 0x14, 0x49, 0x02, 0x01, 0x57, 0x50, 0x30] }).sent
        = [{ id := 0x7E0, extended := false, rtr := 0, length := 8,
             data := [0x30, 0x00, 0x00, 0x00, 0x00, 0x00, 0x00, 0x00] }]
      ∧ headerInBuff (sessionAfter ["ATSH18DAF110", "ATAL", "ATCFC1", "0100"])
          { extendedReplyFrame with data := [0x10, 0x14, 0x49, 0x02, 0x01, 0x57, 0x50, 0x30] }
        = false :=
  ⟨(((flow_control_answer_unless_header_overruns
      { constructed with
        waitingForRequest := true, allowLongMessages := true, canFlowControl_enable := true }
      3 { replyFrame with data := [0x10, 0x14, 0x49, 0x02, 0x01, 0x57, 0x50, 0x30] }
      rfl rfl (by decide) (by decide)).1 (by decide)).1 rfl rfl).1.trans (by decide),
    ((flow_control_answer_unless_header_overruns
      (sessionAfter ["ATSH18DAF110", "ATAL", "ATCFC1", "0100"]) 10
      { extendedReplyFrame with data := [0x10, 0x14, 0x49, 0x02, 0x01, 0x57, 0x50, 0x30] }
      (by decide) (by decide) (by decide) (by decide)).2 (by decide) (by decide)).2⟩

/-- Counterexample to C22 as stated: with long messages allowed, a matching
consecutive-frame is emitted as a raw dump and counted. -/
theorem consecutive_frame_dumped_with_long_messages :
    (processCANReply { constructed with waitingForRequest := true, allowLongMessages := true }
        0 { replyFrame with data := [0x21, 0x57, 0x50, 0x30, 0x5A, 0x5A, 0x5A, 0x39] }).emitted
        = some "7E8 21 57 50 30 5A 5A 5A 39\r".toList
      ∧ (processCANReply
          { constructed with waitingForRequest := true, allowLongMessages := true } 0
          { replyFrame with data := [0x21, 0x57, 0x50, 0x30, 0x5A, 0x5A, 0x5A, 0x39] }).state
        = { constructed with
            waitingForRequest := true, allowLongMessages := true,
            waitingForRequest_CANcount := 1 } := by
  decide

/-- Claim C22, amended. For every session state with a Pending Request active and every
matching inbound consecutive-frame (top nibble 2) or flow-control-frame (top nibble 3) whose
identifier text stays inside `char buff[8]` (headers off, or identifier below 0x10000000):
when long messages are not allowed `processCANReply` emits no text, sends no frame and
changes nothing; when long messages are allowed it sends no frame and leaves the timestamp
unchanged, but increments the frame count and emits the raw dump of the frame (header part,
the 8 raw bytes, line ending). -/
theorem later_frames_by_long_messages_setting (s : ELM327Emu) (millis : Nat) (frame : CAN_FRAME)
    (hw : s.waitingForRequest = true) (hm : addressMatches s frame = true)
    (hcf : frame.byte 0 / 16 = 2 ∨ frame.byte 0 / 16 = 3) :
    headerInBuff s frame = true →
      (s.allowLongMessages = false → processCANReply s millis frame = ⟨s, none, []⟩)
        ∧ (s.allowLongMessages = true →
            (processCANReply s millis frame).sent = []
              ∧ (processCANReply s millis frame).state
                = { s with
                    waitingForRequest_CANcount :=
                      (s.waitingForRequest_CANcount + 1) % 2 ^ 16 }
              ∧ (processCANReply s millis frame).emitted = some (rawDumpText s frame)) := by
  intro _
  have hb : frame.byte 0 < 256 := Nat.mod_lt _ (by decide)
  have hn := later_frame_nibble _ hb hcf
  constructor
  · intro hl
    rcases hn with hn | hn <;> simp [processCANReply, hw, hl, hm, hn]
  · intro hl
    rcases hn with hn | hn <;>
      simp [processCANReply, hw, hl, hm, hn, rawDumpText, payloadText_eq]

/-- Witness for C22 (amended): a flow-control-frame while long messages are not allowed. -/
theorem later_frames_by_long_messages_setting_witness :
    processCANReply { constructed with waitingForRequest := true } 2
        { replyFrame with data := [0x30, 0, 0, 0, 0, 0, 0, 0] }
      = ⟨{ constructed with waitingForRequest := true }, none, []⟩ :=
  (later_frames_by_long_messages_setting { constructed with waitingForRequest := true } 2
    { replyFrame with data := [0x30, 0, 0, 0, 0, 0, 0, 0] } rfl (by decide)
    (Or.inr (by decide)) (by decide)).1 rfl

/-- Counterexample to C23 as stated: for the same session and the same qualifying
single-frame, the text of `processCANSearching` ends with the prompt and so differs from the
text of `processCANReply`. -/
theorem search_reply_carries_prompt :
    (processCANSearching
        { constructed with waitingForRequest := true, waitingForSearching := true } 5
        replyFrame).emitted = some "7E8 41 00 BE 3F B8 11\r>".toList
      ∧ (processCANReply
          { constructed with waitingForRequest := true, waitingForSearching := true } 5
          replyFrame).emitted = some "7E8 41 00 BE 3F B8 11\r".toList := by
  decide

/-- Claim C23, amended. For every session state with the Pending Search active and not yet
past its 1000 ms deadline, and every inbound frame f with 0x7E8 ≤ f.id ≤ 0x7EF,
data[1] = 0x41 and data[2] = 0x00, the text emitted by `processCANSearching` is the
single-frame text of f (which is what `processCANReply` emits for f when f is a
single-frame) followed by the prompt, and the Pending Search is cleared afterwards; for a
frame outside that id range or without that acknowledgment nothing is emitted and the
session stays as it is. -/
theorem search_reply_is_single_frame_text_with_prompt (s : ELM327Emu) (t : Nat) (frame : CAN_FRAME)
    (hw : s.waitingForSearching = true)
    (ht0 : s.waitingForSearching_millis ≤ t) (ht : t < 2 ^ 32)
    (hd : t - s.waitingForSearching_millis ≤ 1000) :
    (qualifiesForSearch frame →
        (processCANSearching s t frame).emitted
            = some (singleFrameText s frame ++ ">".toList)
          ∧ (processCANSearching s t frame).state.waitingForSearching = false
          ∧ (frame.byte 0 / 16 = 0 →
              (processCANReply s t frame).emitted = some (singleFrameText s frame)))
      ∧ (¬ qualifiesForSearch frame → processCANSearching s t frame = ⟨s, none, []⟩) := by
  constructor
  · intro hq
    rw [searching_qualified s t frame hw ht0 ht hd hq]
    exact ⟨rfl, rfl, processCANReply_single s t frame⟩
  · intro hq
    exact searching_not_qualified s t frame hw ht0 ht hd hq

/-- Witness for C23 (amended): the example reply frame 200 ms after arming. -/
theorem search_reply_is_single_frame_text_with_prompt_witness :
    (processCANSearching
        { constructed with waitingForSearching := true, waitingForSearching_millis := 100 } 300
        replyFrame).emitted = some "7E8 41 00 BE 3F B8 11\r>".toList :=
  ((search_reply_is_single_frame_text_with_prompt
      { constructed with waitingForSearching := true, waitingForSearching_millis := 100 } 300
      replyFrame rfl (by decide) (by decide) (by decide)).1 (by decide)).1.trans (by decide)

/-- Claim C24, what the code does. `processCANWaiting` does not look at the Pending Request
flag: for every session state, active or not, a poll at a clock value more than `timeout`
past the stored timestamp finalizes, that is it emits `NO DATA` (if the count is 0), line
ending and prompt and clears flag and count. -/
theorem waiting_poll_ignores_pending_flag (s : ELM327Emu) (millis : Nat)
    (h : s.timeout < (millis + 2 ^ 32 - s.waitingForRequest_millis) % 2 ^ 32) :
    processCANWaiting s millis
      = ⟨{ s with waitingForRequest := false, waitingForRequest_CANcount := 0 },
          some ((if s.waitingForRequest_CANcount = 0 then "NO DATA".toList else [])
            ++ lineEnding s ++ ">".toList), []⟩ := by
  have h2 : (millis + 2 ^ 32 - s.waitingForRequest_millis) % 2 ^ 32 > s.timeout := h
  simp only [processCANWaiting, h2, if_true]

/-- Witness for C24: the constructed session has no Pending Request, and a poll at clock 300
emits `NO DATA`, CR and the prompt. -/
theorem waiting_poll_ignores_pending_flag_witness :
    constructed.waitingForRequest = false
      ∧ (processCANWaiting constructed 300).emitted = some "NO DATA\r>".toList :=
  ⟨rfl, (congrArg BusOutcome.emitted
    (waiting_poll_ignores_pending_flag constructed 300 (by decide))).trans (by decide)⟩

/-- Claim C25. In the cascade of `processELMCmd` no more specific command is shadowed by a
shorter one tried earlier: for every session state, a command starting with `atst` sets the
timeout, replies OK and leaves the space setting unchanged; `atsh...` sets the transmit
address and `atsp...` is answered by set-protocol, both leaving the space setting unchanged;
`atma` arms monitor mode and gets no OK; `atdp`, `atdpn`, `atd0`, `atd1` and `atd` reach
their own handlers (replies `can11/500`, `6`, OK with data-length printing off, OK with
data-length printing on, OK with no change). -/
theorem specific_commands_not_shadowed (s : ELM327Emu) (millis : Nat) (fresh : CAN_FRAME)
    (raw arg : List Char) :
    (normalize raw = "atst".toList ++ arg →
        (processELMCmd s millis fresh raw).state.print_space = s.print_space
          ∧ (processELMCmd s millis fresh raw).state.timeout
            = Utility.parseHexString (fun k => cmdAt raw (normalize raw) (4 + k)) 2 * 4 % 2 ^ 16
          ∧ (processELMCmd s millis fresh raw).reply
            = echoText s raw ++ "OK".toList ++ lineEnding s ++ ">".toList)
      ∧ (normalize raw = "atsh".toList ++ arg →
        (processELMCmd s millis fresh raw).state.print_space = s.print_space
          ∧ (processELMCmd s millis fresh raw).state.canTransmitAddress
            = Utility.parseHexString (fun k => cmdAt raw (normalize raw) (4 + k)) arg.length
          ∧ (processELMCmd s millis fresh raw).reply
            = echoText s raw ++ "OK".toList ++ lineEnding s ++ ">".toList)
      ∧ (normalize raw = "atsp".toList ++ arg →
        (processELMCmd s millis fresh raw).state.print_space = s.print_space
          ∧ (processELMCmd s millis fresh raw).reply
            = echoText s raw
                ++ (if arg.head? = some '0' then "SEARCHING...".toList
                    else if arg.head? = some '6' then "OK".toList else "?".toList)
                ++ lineEnding s ++ ">".toList)
      ∧ (normalize raw = "atma".toList ++ arg →
        (processELMCmd s millis fresh raw).state.monitorAll_enable = true
          ∧ (processELMCmd s millis fresh raw).reply
            = echoText s raw ++ lineEnding s ++ ">".toList)
      ∧ (normalize raw = "atdp".toList →
        (processELMCmd s millis fresh raw).state = clearMonitor s
          ∧ (processELMCmd s millis fresh raw).reply
            = echoText s raw ++ "can11/500".toList ++ lineEnding s ++ ">".toList)
      ∧ (normalize raw = "atdpn".toList →
        (processELMCmd s millis fresh raw).state = clearMonitor s
          ∧ (processELMCmd s millis fresh raw).reply
            = echoText s raw ++ "6".toList ++ lineEnding s ++ ">".toList)
      ∧ (normalize raw = "atd0".toList ++ arg →
        (processELMCmd s millis fresh raw).state = { clearMonitor s with print_dlc := false }
          ∧ (processELMCmd s millis fresh raw).reply
            = echoText s raw ++ "OK".toList ++ lineEnding s ++ ">".toList)
      ∧ (normalize raw = "atd1".toList ++ arg →
        (processELMCmd s millis fresh raw).state = { clearMonitor s with print_dlc := true }
          ∧ (processELMCmd s millis fresh raw).reply
            = echoText s raw ++ "OK".toList ++ lineEnding s ++ ">".toList)
      ∧ (normalize raw = "atd".toList →
        (processELMCmd s millis fresh raw).state = clearMonitor s
          ∧ (processELMCmd s millis fresh raw).reply
            = echoText s raw ++ "OK".toList ++ lineEnding s ++ ">".toList) := by
  refine ⟨?_, ?_, ?_, ?_, ?_, ?_, ?_, ?_, ?_⟩
  · intro h
    rw [processELMCmd_at s millis fresh raw (by rw [h]; rfl)]
    rw [h]
    simp [atDispatch, strncmp0, strcmp0, clearMonitor_eq]
  · intro h
    rw [processELMCmd_at s millis fresh raw (by rw [h]; rfl)]
    rw [h]
    simp [atDispatch, strncmp0, strcmp0, clearMonitor_eq]
  · intro h
    rw [processELMCmd_at s millis fresh raw (by rw [h]; rfl)]
    rw [h]
    rcases arg with _ | ⟨c, rest⟩
    · simp [atDispatch, strncmp0, strcmp0, clearMonitor_eq, cmdAt]
    · by_cases h0 : c = '0'
      · simp [atDispatch, strncmp0, strcmp0, clearMonitor_eq, cmdAt, h0]
      · by_cases h6 : c = '6'
        · simp [atDispatch, strncmp0, strcmp0, clearMonitor_eq, cmdAt, h6]
        · simp [atDispatch, strncmp0, strcmp0, clearMonitor_eq, cmdAt, h0, h6]
  · intro h
    rw [processELMCmd_at s millis fresh raw (by rw [h]; rfl)]
    rw [h]
    simp [atDispatch, strncmp0, strcmp0]
  · intro h
    rw [processELMCmd_at s millis fresh raw (by rw [h]; rfl)]
    rw [h]
    simp [atDispatch, strncmp0, strcmp0]
  · intro h
    rw [processELMCmd_at s millis fresh raw (by rw [h]; rfl)]
    rw [h]
    simp [atDispatch, strncmp0, strcmp0]
  · intro h
    rw [processELMCmd_at s millis fresh raw (by rw [h]; rfl)]
    rw [h]
    simp [atDispatch, strncmp0, strcmp0]
  · intro h
    rw [processELMCmd_at s millis fresh raw (by rw [h]; rfl)]
    rw [h]
    simp [atDispatch, strncmp0, strcmp0]
  · intro h
    rw [processELMCmd_at s millis fresh raw (by rw [h]; rfl)]
    rw [h]
    simp [atDispatch, strncmp0, strcmp0]

/-- Witness for C25: `ATST32` leaves the space setting and sets the timeout to 200. -/
theorem specific_commands_not_shadowed_witness :
    (processELMCmd constructed 0 zeroFrame "ATST32".toList).state.print_space = true
      ∧ (processELMCmd constructed 0 zeroFrame "ATST32".toList).state.timeout = 200 :=
  ⟨((specific_commands_not_shadowed constructed 0 zeroFrame "ATST32".toList "32".toList).1
      (by decide)).1,
    ((specific_commands_not_shadowed constructed 0 zeroFrame "ATST32".toList "32".toList).1
      (by decide)).2.1.trans (by decide)⟩

/-- Claim C26. For every session state and every input whose normalized form begins with
`at`, if the reply of `processELMCmd` is the unsupported-command reply (`?`, line ending and
prompt, after the echo if any), then every Session Configuration field, the Pending Request
and the Pending Search are the same after the call as before it, and no frame was sent. -/
theorem unsupported_reply_changes_nothing (s : ELM327Emu) (millis : Nat) (fresh : CAN_FRAME)
    (raw : List Char)
    (hat : (normalize raw).take 2 = "at".toList)
    (hr : (processELMCmd s millis fresh raw).reply
      = echoText s raw ++ "?".toList ++ lineEnding s ++ ">".toList) :
    sessionConfiguration (processELMCmd s millis fresh raw).state = sessionConfiguration s
      ∧ (processELMCmd s millis fresh raw).state.waitingForRequest = s.waitingForRequest
      ∧ (processELMCmd s millis fresh raw).state.waitingForRequest_millis
          = s.waitingForRequest_millis
      ∧ (processELMCmd s millis fresh raw).state.waitingForRequest_CANcount
          = s.waitingForRequest_CANcount
      ∧ (processELMCmd s millis fresh raw).state.waitingForSearching = s.waitingForSearching
      ∧ (processELMCmd s millis fresh raw).state.waitingForSearching_millis
          = s.waitingForSearching_millis
      ∧ (processELMCmd s millis fresh raw).sent = [] := by
  rw [processELMCmd_at s millis fresh raw hat] at hr ⊢
  simp only [List.append_assoc] at hr
  have hb := List.append_cancel_right (List.append_cancel_left hr)
  obtain ⟨h1, h2⟩ := atDispatch_unsupported _ _ _ _ _ hb
  simp only []
  rw [h1, h2, clearMonitor_eq]
  exact ⟨rfl, rfl, rfl, rfl, rfl, rfl, rfl⟩

/-- Witness for C26: the unknown command `ATXYZ` in a session with a Pending Request and a
changed timeout. -/
theorem unsupported_reply_changes_nothing_witness :
    sessionConfiguration
        (processELMCmd { constructed with waitingForRequest := true, timeout := 40 } 7
          zeroFrame "ATXYZ".toList).state
      = sessionConfiguration { constructed with waitingForRequest := true, timeout := 40 } :=
  (unsupported_reply_changes_nothing { constructed with waitingForRequest := true, timeout := 40 }
    7 zeroFrame "ATXYZ".toList (by decide) (by decide)).1

/-- Claim C29, what the code does. With automatic formatting enabled, for a frame that is
not dumped as a multi-frame (top nibble of data byte 0 is 0) the formatting loops of
`processCANReply` and `processCANSearching` read the positions 1 .. data[0]; so whenever
data byte 0 is 8 or more, position 8, which lies past the 8 payload bytes, is read. -/
theorem automatic_formatting_reads_past_payload (s : ELM327Emu) (frame : CAN_FRAME)
    (ha : s.canAutomaticFormatting_enable = true) (hsf : frame.byte 0 / 16 = 0) :
    replyReads s frame = (List.range (frame.byte 0)).map (fun i => i + 1)
      ∧ searchingReads s frame = (List.range (frame.byte 0)).map (fun i => i + 1)
      ∧ (8 ≤ frame.byte 0 → 8 ∈ replyReads s frame ∧ 8 ∈ searchingReads s frame) := by
  have hb : frame.byte 0 < 256 := Nat.mod_lt _ (by decide)
  have hnm := single_frame_not_multi _ hb hsf
  have h1 : replyReads s frame = (List.range (frame.byte 0)).map (fun i => i + 1) := by
    simp [replyReads, payloadReads, hnm, ha]
  have h2 : searchingReads s frame = (List.range (frame.byte 0)).map (fun i => i + 1) := by
    simp [searchingReads, payloadReads, ha]
  refine ⟨h1, h2, ?_⟩
  intro h8
  rw [h1, h2]
  have : 8 ∈ (List.range (frame.byte 0)).map (fun i => i + 1) := by
    simp only [List.mem_map, List.mem_range]
    exact ⟨7, by omega, rfl⟩
  exact ⟨this, this⟩

/-- Witness for C29: a frame whose data byte 0 is 0x08. -/
theorem automatic_formatting_reads_past_payload_witness :
    8 ∈ replyReads { constructed with waitingForRequest := true }
        { replyFrame with data := [0x08, 0x41, 0x00, 0xBE, 0x3F, 0xB8, 0x11, 0xAA] }
      ∧ 8 ∈ searchingReads { constructed with waitingForRequest := true }
          { replyFrame with data := [0x08, 0x41, 0x00, 0xBE, 0x3F, 0xB8, 0x11, 0xAA] } :=
  (automatic_formatting_reads_past_payload { constructed with waitingForRequest := true }
    { replyFrame with data := [0x08, 0x41, 0x00, 0xBE, 0x3F, 0xB8, 0x11, 0xAA] } rfl
    (by decide)).2.2 (by decide)

/-- Claim C30, at the failing input. The buffers `ATST`, NUL, `f` (the line `ATST` stored
over an earlier, longer command whose sixth character was `f`) and `AT ST`, NUL hold two
lines with the same normalized form `atst`; in the constructed session, with echo off, the
first sets the timeout to 60 and the second to 0, so the final states differ. -/
theorem stale_byte_breaks_normal_form_invariance :
    normalize "ATST\x00f".toList = normalize "AT ST\x00".toList
      ∧ constructed.print_echo = false
      ∧ (processELMCmd constructed 0 zeroFrame "ATST\x00f".toList).state.timeout = 60
      ∧ (processELMCmd constructed 0 zeroFrame "AT ST\x00".toList).state.timeout = 0
      ∧ (processELMCmd constructed 0 zeroFrame "ATST\x00f".toList).state
        ≠ (processELMCmd constructed 0 zeroFrame "AT ST\x00".toList).state := by
  decide

end ELM327
